import Mathlib

/-!
Verification of the RISC-V (RV32IM + C) ELF disassembler.

This file gives a shallow embedding of the instruction decoder implemented in
`src/elf_parser.cpp` and proves (or refutes) the specification claims about it.

Embedding conventions:
* machine integers are modelled as `Nat` (all relevant C++ values are unsigned
  32/16-bit quantities that never overflow in the modelled computations, except
  where an explicit wrap is written in the model, mirroring the C++ conversion);
* C++ exceptions (`std::invalid_argument` from `get_reg` / `print_cmd`) are
  modelled with `Option`: `none` means the exception was thrown and the run aborts;
* the input stream is modelled as the list of bytes of the `.text` section, and
  the `std::map<uint32_t, string>` of tags as a lookup function `Nat → Option String`.
-/

namespace Disasm

/-- The function `get_segment cmd l r` models `Parser::get_segment` from `elf_parser.cpp`:
`std::bitset<N>(cmd).to_string().substr(N - r - 1, r - l + 1)`, i.e. the
characters of bits `r` down to `l` of `cmd` ('0'/'1', most significant first).
The result is independent of the bitset width `N` as long as `r < N`, which
holds at every call site, so a single width-independent definition is used for
both the 16-bit and the 32-bit overload. -/
def get_segment (cmd : Nat) (l r : Nat) : String :=
  String.mk ((List.range (r + 1 - l)).map
    (fun i => if (cmd >>> (r - i)) % 2 = 1 then '1' else '0'))

/-- The function `get_unsigned value l r` models `Parser::get_unsigned`:
`result = 0; for (i = l; i <= r; i++) if ((value >> i) & 1) result |= 1 << (i - l);`
(the loop index is re-based to `i - l ∈ [0, r - l]`). -/
def get_unsigned (value : Nat) (l r : Nat) : Nat :=
  (List.range (r + 1 - l)).foldl
    (fun result i => if (value >>> (l + i)) % 2 = 1 then result ||| (1 <<< i) else result) 0

/-- The function `get_signed value l r` models `Parser::get_signed`:
if bit `r` of `value` is set, it accumulates the complemented bits `l..r-1`
(`if (!((value >> i) & 1)) result |= 1 << (i - l);`) and returns `-result - 1`;
otherwise it returns `get_unsigned value l (r - 1)`.
All call sites in the source have `r ≥ 5`, so the `Nat` subtraction `r - 1`
coincides with the C++ `int` subtraction. -/
def get_signed (value : Nat) (l r : Nat) : Int :=
  if (value >>> r) % 2 = 1 then
    -(((List.range (r - l)).foldl
        (fun result i => if (value >>> (l + i)) % 2 ≠ 1 then result ||| (1 <<< i) else result)
        0 : Nat) : Int) - 1
  else
    ((get_unsigned value l (r - 1) : Nat) : Int)

/-- The function `get_cmd32 next16 cmd16` models `Parser::get_cmd32` after the second
half-word has been read from the stream: `cmd32 = (cmd16_new << 16) | cmd32`,
i.e. the new half-word goes to the high 16 bits and the already-read one stays
in the low 16 bits. -/
def get_cmd32 (next16 cmd16 : Nat) : Nat :=
  (next16 <<< 16) ||| cmd16

/-- The function `get_reg` models `Parser::get_reg`; `none` models the thrown
`std::invalid_argument("unknown register")`. -/
def get_reg (id : Nat) : Option String :=
  if id = 0 then some "zero"
  else if id = 1 then some "ra"
  else if id = 2 then some "sp"
  else if id = 3 then some "gp"
  else if id = 4 then some "tp"
  else if 5 ≤ id ∧ id ≤ 7 then some ("t" ++ toString (id - 5))
  else if id = 8 ∨ id = 9 then some ("s" ++ toString (id - 8))
  else if 10 ≤ id ∧ id ≤ 17 then some ("a" ++ toString (id - 10))
  else if 18 ≤ id ∧ id ≤ 27 then some ("s" ++ toString (id - 16))
  else if 28 ≤ id ∧ id ≤ 31 then some ("t" ++ toString (id - 25))
  else none

/-! ## Arithmetic characterization of the bit extractor -/

theorem lor_two_pow_of_lt {a n : Nat} (h : a < 2 ^ n) : a ||| 2 ^ n = a + 2 ^ n := by
  apply Nat.eq_of_testBit_eq
  intro i
  rw [Nat.testBit_lor, Nat.testBit_two_pow]
  simp only [Nat.testBit_to_div_mod]
  rcases lt_trichotomy i n with hi | hi | hi
  · have h2 : (2 : Nat) ^ n = 2 ^ i * 2 ^ (n - i) := by
      rw [← pow_add]; congr 1; omega
    have hpow : (2 : Nat) ^ (n - i) % 2 = 0 := by
      have h3 : n - i = (n - i - 1) + 1 := by omega
      rw [h3, pow_succ, Nat.mul_mod_left]
    have hne : decide (n = i) = false := by simp; omega
    rw [hne, h2, Nat.add_mul_div_left _ _ (Nat.two_pow_pos i), Nat.add_mod, hpow]
    simp
  · subst hi
    have hz : a / 2 ^ i = 0 := Nat.div_eq_of_lt h
    have h1 : (a + 2 ^ i) / 2 ^ i = 1 := by
      rw [Nat.add_div_right _ (Nat.two_pow_pos i), hz]
    rw [h1, hz]
    simp
  · have hne : decide (n = i) = false := by simp; omega
    have h1 : a / 2 ^ i = 0 :=
      Nat.div_eq_of_lt (lt_trans h (Nat.pow_lt_pow_right one_lt_two hi))
    have h2 : (a + 2 ^ n) / 2 ^ i = 0 := by
      apply Nat.div_eq_of_lt
      calc a + 2 ^ n < 2 ^ n + 2 ^ n := by omega
        _ = 2 ^ (n + 1) := by rw [pow_succ]; omega
        _ ≤ 2 ^ i := Nat.pow_le_pow_right (by omega) (by omega)
    rw [hne, h1, h2]
    simp

theorem mod_two_pow_succ (x n : Nat) : x % 2 ^ (n + 1) = x % 2 ^ n + 2 ^ n * (x / 2 ^ n % 2) := by
  conv_lhs => rw [pow_succ, Nat.mod_mul]

theorem unsigned_fold_eq (value l : Nat) :
    ∀ n, (List.range n).foldl
      (fun result i => if (value >>> (l + i)) % 2 = 1 then result ||| (1 <<< i) else result) 0
      = (value >>> l) % 2 ^ n := by
  intro n
  induction n with
  | zero => simp [Nat.mod_one]
  | succ n ih =>
    rw [List.range_succ, List.foldl_append, ih, List.foldl_cons, List.foldl_nil]
    have hsh : value >>> (l + n) = (value >>> l) / 2 ^ n := by
      rw [Nat.shiftRight_add, Nat.shiftRight_eq_div_pow]
    have hlt : (value >>> l) % 2 ^ n < 2 ^ n := Nat.mod_lt _ (Nat.two_pow_pos n)
    have hone : (1 : Nat) <<< n = 2 ^ n := by rw [Nat.shiftLeft_eq, one_mul]
    rw [mod_two_pow_succ, hsh]
    rcases Nat.mod_two_eq_zero_or_one ((value >>> l) / 2 ^ n) with hb | hb
    · rw [hb, if_neg (by omega)]; omega
    · rw [hb, if_pos rfl, hone, lor_two_pow_of_lt hlt]; omega

theorem get_unsigned_eq (value l r : Nat) :
    get_unsigned value l r = (value >>> l) % 2 ^ (r + 1 - l) :=
  unsigned_fold_eq value l (r + 1 - l)

theorem signed_fold_eq (value l : Nat) :
    ∀ n, (List.range n).foldl
      (fun result i => if (value >>> (l + i)) % 2 ≠ 1 then result ||| (1 <<< i) else result) 0
      = (2 ^ n - 1) - (value >>> l) % 2 ^ n := by
  intro n
  induction n with
  | zero => simp [Nat.mod_one]
  | succ n ih =>
    rw [List.range_succ, List.foldl_append, ih, List.foldl_cons, List.foldl_nil]
    have hsh : value >>> (l + n) = (value >>> l) / 2 ^ n := by
      rw [Nat.shiftRight_add, Nat.shiftRight_eq_div_pow]
    have hlt : (value >>> l) % 2 ^ n < 2 ^ n := Nat.mod_lt _ (Nat.two_pow_pos n)
    have hone : (1 : Nat) <<< n = 2 ^ n := by rw [Nat.shiftLeft_eq, one_mul]
    have hprev : (2 ^ n - 1) - (value >>> l) % 2 ^ n < 2 ^ n := by
      have := Nat.two_pow_pos n; omega
    rw [mod_two_pow_succ, hsh]
    rcases Nat.mod_two_eq_zero_or_one ((value >>> l) / 2 ^ n) with hb | hb
    · rw [hb, if_pos (by omega), hone, lor_two_pow_of_lt hprev]
      have := Nat.two_pow_pos n
      rw [pow_succ]; omega
    · rw [hb, if_neg (by omega)]
      have := Nat.two_pow_pos n
      rw [pow_succ]; omega

theorem get_unsigned_lt (value l r : Nat) : get_unsigned value l r < 2 ^ (r + 1 - l) := by
  rw [get_unsigned_eq]; exact Nat.mod_lt _ (Nat.two_pow_pos _)

/-- For `1 ≤ r`, the field `[l, r-1]` is the low `r - l` bits of `value >>> l`. -/
theorem get_unsigned_pred (value l r : Nat) (hr : 1 ≤ r) :
    get_unsigned value l (r - 1) = (value >>> l) % 2 ^ (r - l) := by
  rw [get_unsigned_eq]
  have h : r - 1 + 1 - l = r - l := by omega
  rw [h]

theorem shiftRight_top (value l r : Nat) (hlr : l ≤ r) :
    value >>> r = (value >>> l) / 2 ^ (r - l) := by
  rw [← Nat.shiftRight_eq_div_pow, ← Nat.shiftRight_add]
  congr 1; omega

/-- Bit `r` set: the field `[l, r]` splits into the low part plus the top bit. -/
theorem get_unsigned_split (value l r : Nat) (hlr : l ≤ r) (hbit : (value >>> r) % 2 = 1) :
    get_unsigned value l r = (value >>> l) % 2 ^ (r - l) + 2 ^ (r - l) := by
  rw [get_unsigned_eq]
  have h1 : r + 1 - l = (r - l) + 1 := by omega
  rw [h1, mod_two_pow_succ, ← shiftRight_top value l r hlr, hbit, mul_one]

/-- Claim C5, case bit `r` set:
`signed(v, l, r) = unsigned(v, l, r) - 2^(r-l+1)`. -/
theorem get_signed_of_bit_set (value l r : Nat) (hlr : l ≤ r) (hbit : (value >>> r) % 2 = 1) :
    get_signed value l r = (get_unsigned value l r : Int) - 2 ^ (r - l + 1) := by
  unfold get_signed
  rw [if_pos hbit, signed_fold_eq, get_unsigned_split value l r hlr hbit]
  have hmlt : (value >>> l) % 2 ^ (r - l) < 2 ^ (r - l) := Nat.mod_lt _ (Nat.two_pow_pos _)
  have hpow : ((2 : Int) ^ (r - l + 1)) = 2 * 2 ^ (r - l) := by ring
  rw [hpow]
  have h1m : 1 + (value >>> l) % 2 ^ (r - l) ≤ 2 ^ (r - l) := by omega
  rw [Nat.sub_sub, Int.ofNat_sub h1m]
  push_cast
  ring

/-- Claim C5: bit `r` clear. -/
theorem get_signed_of_bit_clear (value l r : Nat) (hbit : (value >>> r) % 2 ≠ 1) :
    get_signed value l r = (get_unsigned value l (r - 1) : Int) := by
  unfold get_signed
  rw [if_neg hbit]

/-- The result of `get_signed` always lies in `[-2^(r-l), 2^(r-l))`. -/
theorem get_signed_range (value l r : Nat) (hlr : l ≤ r) :
    -((2 : Int) ^ (r - l)) ≤ get_signed value l r ∧ get_signed value l r < 2 ^ (r - l) := by
  rcases Nat.mod_two_eq_zero_or_one (value >>> r) with hb | hb
  · rw [get_signed_of_bit_clear value l r (by omega)]
    rcases Nat.eq_zero_or_pos r with hr0 | hr1
    · subst hr0
      have hl0 : l = 0 := by omega
      subst hl0
      have h0 : get_unsigned value 0 0 = 0 := by
        rw [get_unsigned_eq]
        simpa using hb
      rw [h0]
      simp
    · have h1 : get_unsigned value l (r - 1) < 2 ^ (r - l) := by
        rw [get_unsigned_pred value l r hr1]
        exact Nat.mod_lt _ (Nat.two_pow_pos _)
      constructor
      · have : (0 : Int) ≤ (get_unsigned value l (r - 1) : Int) := Int.ofNat_nonneg _
        have hp : (0 : Int) < 2 ^ (r - l) := by positivity
        omega
      · exact_mod_cast h1
  · rw [get_signed_of_bit_set value l r hlr hb, get_unsigned_split value l r hlr hb]
    have hmlt : (value >>> l) % 2 ^ (r - l) < 2 ^ (r - l) := Nat.mod_lt _ (Nat.two_pow_pos _)
    have hpow : ((2 : Int) ^ (r - l + 1)) = 2 * 2 ^ (r - l) := by ring
    rw [hpow]
    have hcast : (((value >>> l) % 2 ^ (r - l) : Nat) : Int) < (2 : Int) ^ (r - l) := by
      exact_mod_cast hmlt
    push_cast
    constructor <;> omega

/-- C5: for every 32-bit value `v` and bit range `0 ≤ l ≤ r ≤ 31`, the signed
extractor satisfies `signed(v, l, r) = unsigned(v, l, r) - 2^(r-l+1)` when bit
`r` of `v` is set, `signed(v, l, r) = unsigned(v, l, r-1)` when bit `r` is
clear, and its result always lies in `[-2^(r-l), 2^(r-l))`. -/
theorem c5_sign_extension (v l r : Nat) (hv : v < 2 ^ 32) (hlr : l ≤ r) (hr : r ≤ 31) :
    ((v >>> r) % 2 = 1 → get_signed v l r = (get_unsigned v l r : Int) - 2 ^ (r - l + 1)) ∧
    ((v >>> r) % 2 = 0 → get_signed v l r = (get_unsigned v l (r - 1) : Int)) ∧
    (-((2 : Int) ^ (r - l)) ≤ get_signed v l r ∧ get_signed v l r < 2 ^ (r - l)) := by
  refine ⟨fun hbit => get_signed_of_bit_set v l r hlr hbit,
          fun hbit => get_signed_of_bit_clear v l r (by omega),
          get_signed_range v l r hlr⟩

/-- Witness for C5 at the concrete input `v = 0xABCD`, `l = 4`, `r = 11`. -/
theorem c5_sign_extension_witness :
    ((43981 >>> 11) % 2 = 1 →
      get_signed 43981 4 11 = (get_unsigned 43981 4 11 : Int) - 2 ^ (11 - 4 + 1)) ∧
    ((43981 >>> 11) % 2 = 0 →
      get_signed 43981 4 11 = (get_unsigned 43981 4 (11 - 1) : Int)) ∧
    (-((2 : Int) ^ (11 - 4)) ≤ get_signed 43981 4 11 ∧ get_signed 43981 4 11 < 2 ^ (11 - 4)) :=
  c5_sign_extension 43981 4 11 (by norm_num) (by norm_num) (by norm_num)

/-! ## The instruction decoder

`parse_text` in `elf_parser.cpp` is one large loop body; it is embedded here as
one function per dispatch group (quadrants 0/1/2 of the compressed encoding and
one function per recognized 7-bit base opcode), assembled by `decode_step`,
which mirrors the `if`/`else if` chain of the loop body verbatim. -/

/-- Which dispatch group handled the half-word (embedding bookkeeping):
`compressed` for the quadrant-00/01/10 branches, `base` for the nine
recognized 32-bit opcode branches, `unmatched` for the final fall-through. -/
inductive DispatchPath where
  | compressed
  | base
  | unmatched
deriving DecidableEq

/-- One decoded item: mnemonic (empty = `unknown_command`), operand strings,
the load/store-syntax flag, the number of bytes consumed from the stream,
the dispatch group taken, and the word that was decoded (`cmd16` or `cmd32`). -/
structure Decoded where
  cmd_name : String
  args : List String
  is_load_store : Bool
  consumed : Nat
  path : DispatchPath
  word : Nat
deriving DecidableEq

/-- C++ implicit conversion from a (possibly negative) `int` to `uint32_t`:
reduction modulo `2^32`. -/
def to_uint32 (x : Int) : Nat := (x % 4294967296).toNat

/-- The 32-bit wrapping sum `adr + value` (`uint32_t + int` in C++), used for
the tag lookups `tags.count(adr + value)` / `tags[adr + value]`. -/
def wrap32 (adr : Nat) (value : Int) : Nat := to_uint32 ((adr : Int) + value)

/-- Spec 4.F label resolution, as the claims state it: look up `adr + value`
(32-bit wrapping) in the tags mapping; on a hit the operand is the symbol
name, on a miss the signed decimal displacement. -/
def resolve (tags : Nat → Option String) (adr : Nat) (value : Int) : String :=
  match tags (wrap32 adr value) with
  | some name => name
  | none => toString value

/-- The `uvalue` expression shared by the `c.jal` and `c.j` branches
(lines 338-345 and 428-435 of `elf_parser.cpp` are textually identical). -/
def cj_uvalue (cmd16 : Nat) : Nat :=
  (get_unsigned cmd16 12 12 <<< 11) + (get_unsigned cmd16 11 11 <<< 4) +
  (get_unsigned cmd16 9 10 <<< 8) + (get_unsigned cmd16 8 8 <<< 10) +
  (get_unsigned cmd16 7 7 <<< 6) + (get_unsigned cmd16 6 6 <<< 7) +
  (get_unsigned cmd16 3 5 <<< 1) + (get_unsigned cmd16 2 2 <<< 5)

/-- The `uvalue` expression of the `c.beqz`/`c.bnez` branch. -/
def cb_uvalue (cmd16 : Nat) : Nat :=
  (get_unsigned cmd16 12 12 <<< 8) + (get_unsigned cmd16 10 11 <<< 3) +
  (get_unsigned cmd16 5 6 <<< 6) + (get_unsigned cmd16 3 4 <<< 1) +
  (get_unsigned cmd16 2 2 <<< 5)

/-- The `uvalue` expression of the `jal` branch. -/
def jal_uvalue (cmd32 : Nat) : Nat :=
  (get_unsigned cmd32 31 31 <<< 20) + (get_unsigned cmd32 21 30 <<< 1) +
  (get_unsigned cmd32 20 20 <<< 11) + (get_unsigned cmd32 12 19 <<< 12)

/-- The `uvalue` expression of the conditional-branch opcode group. -/
def br_uvalue (cmd32 : Nat) : Nat :=
  (get_unsigned cmd32 31 31 <<< 12) + (get_unsigned cmd32 25 30 <<< 5) +
  (get_unsigned cmd32 8 11 <<< 1) + (get_unsigned cmd32 7 7 <<< 11)

/-- Quadrant 0 (`get_segment(cmd16, 0, 1) == "00"`), lines 274-322. -/
def decode_q0 (cmd16 : Nat) : Option (String × List String × Bool) :=
  let type := get_segment cmd16 13 15
  if type = "000" then do
    let value := (get_unsigned cmd16 11 12 <<< 4) + (get_unsigned cmd16 7 10 <<< 6) +
        (get_unsigned cmd16 6 6 <<< 2) + (get_unsigned cmd16 5 5 <<< 3)
    let r1 ← get_reg (get_unsigned cmd16 2 4 + 8)
    let r2 ← get_reg 2
    some ("c.addi4spn", [r1, r2, toString value], false)
  else if type = "001" ∨ type = "011" ∨ type = "101" then do
    let cmd_name := if type = "001" then "c.fld" else if type = "011" then "c.ld" else "c.fsd"
    let value := (get_unsigned cmd16 10 12 <<< 3) + (get_unsigned cmd16 5 6 <<< 6)
    let r1 ← get_reg (get_unsigned cmd16 2 4 + 8)
    let r2 ← get_reg (get_unsigned cmd16 7 9 + 8)
    some (cmd_name, [r1, toString value, r2], true)
  else if type = "010" ∨ type = "011" ∨ type = "110" ∨ type = "111" then do
    let cmd_name := if type = "010" then "c.lw" else if type = "011" then "c.flw"
        else if type = "110" then "c.sw" else "c.fsw"
    let value := (get_unsigned cmd16 10 12 <<< 3) + (get_unsigned cmd16 6 6 <<< 2) +
        (get_unsigned cmd16 5 5 <<< 6)
    let r1 ← get_reg (get_unsigned cmd16 2 4 + 8)
    let r2 ← get_reg (get_unsigned cmd16 7 9 + 8)
    some (cmd_name, [r1, toString value, r2], true)
  else
    some ("", [], false)

/-- Quadrant 1, funct3 `000` (`c.addi`), lines 328-335. -/
def q1_addi (cmd16 : Nat) : Option (String × List String × Bool) := do
  let r1 ← get_reg (get_unsigned cmd16 7 11)
  let r2 ← get_reg (get_unsigned cmd16 7 11)
  some ("c.addi", [r1, r2,
    toString (get_signed ((get_unsigned cmd16 12 12 <<< 5) + get_unsigned cmd16 2 6) 0 5)],
    false)

/-- Quadrant 1, funct3 `001` (`c.jal`), lines 336-351. -/
def q1_cjal (tags : Nat → Option String) (adr cmd16 : Nat) :
    Option (String × List String × Bool) :=
  let value := get_signed (cj_uvalue cmd16) 0 11
  match tags (wrap32 adr value) with
  | some name => some ("c.jal", [name], false)
  | none => some ("c.jal", [toString value], false)

/-- Quadrant 1, funct3 `010` (`c.li`), lines 352-358. -/
def q1_cli (cmd16 : Nat) : Option (String × List String × Bool) := do
  let r1 ← get_reg (get_unsigned cmd16 7 11)
  some ("c.li", [r1,
    toString (get_signed ((get_unsigned cmd16 12 12 <<< 5) + get_unsigned cmd16 2 6) 0 5)],
    false)

/-- Quadrant 1, funct3 `011` with `rd = 2` (`c.addi16sp`), lines 359-371. -/
def q1_addi16sp (cmd16 : Nat) : Option (String × List String × Bool) := do
  let uvalue := (get_unsigned cmd16 12 12 <<< 9) + (get_unsigned cmd16 6 6 <<< 4) +
      (get_unsigned cmd16 5 5 <<< 6) + (get_unsigned cmd16 3 4 <<< 7) +
      (get_unsigned cmd16 2 2 <<< 5)
  let value := get_signed uvalue 0 9
  let r1 ← get_reg 2
  let r2 ← get_reg 2
  some ("c.addi16sp", [r1, r2, toString value], false)

/-- Quadrant 1, funct3 `011` otherwise (`c.lui`), lines 372-379. -/
def q1_clui (cmd16 : Nat) : Option (String × List String × Bool) := do
  let value := get_signed ((get_unsigned cmd16 12 12 <<< 17) +
      (get_unsigned cmd16 2 6 <<< 12)) 0 17
  let r1 ← get_reg (get_unsigned cmd16 7 11)
  some ("c.lui", [r1, toString value], false)

/-- Quadrant 1, funct3 `100` (the arithmetic subgroup), lines 380-425. -/
def q1_arith (cmd16 : Nat) : Option (String × List String × Bool) :=
  if get_segment cmd16 10 11 = "00" then do
    let r1 ← get_reg (get_unsigned cmd16 7 9 + 8)
    let r2 ← get_reg (get_unsigned cmd16 7 9 + 8)
    some ("c.srli", [r1, r2,
      toString ((get_unsigned cmd16 12 12 <<< 5) + get_unsigned cmd16 2 6)], false)
  else if get_segment cmd16 10 11 = "01" then do
    let r1 ← get_reg (get_unsigned cmd16 7 9 + 8)
    let r2 ← get_reg (get_unsigned cmd16 7 9 + 8)
    some ("c.srai", [r1, r2,
      toString ((get_unsigned cmd16 12 12 <<< 5) + get_unsigned cmd16 2 6)], false)
  else if get_segment cmd16 10 11 = "10" then do
    let value := get_signed ((get_unsigned cmd16 12 12 <<< 5) + get_unsigned cmd16 2 6) 0 5
    let r1 ← get_reg (get_unsigned cmd16 7 9 + 8)
    let r2 ← get_reg (get_unsigned cmd16 7 9 + 8)
    some ("c.andi", [r1, r2, toString value], false)
  else if get_segment cmd16 10 11 = "11" then do
    let r1 ← get_reg (get_unsigned cmd16 7 9 + 8)
    let r2 ← get_reg (get_unsigned cmd16 7 9 + 8)
    let r3 ← get_reg (get_unsigned cmd16 2 4 + 8)
    let type2 := get_segment cmd16 12 12 ++ get_segment cmd16 5 6
    let cmd_name := if type2 = "000" then "c.sub" else if type2 = "001" then "c.xor"
        else if type2 = "010" then "c.or" else if type2 = "011" then "c.and"
        else if type2 = "100" then "c.subw" else if type2 = "101" then "c.addw" else ""
    some (cmd_name, [r1, r2, r3], false)
  else
    some ("", [], false)

/-- Quadrant 1, funct3 `101` (`c.j`), lines 426-441. -/
def q1_cj (tags : Nat → Option String) (adr cmd16 : Nat) :
    Option (String × List String × Bool) :=
  let value := get_signed (cj_uvalue cmd16) 0 11
  match tags (wrap32 adr value) with
  | some name => some ("c.j", [name], false)
  | none => some ("c.j", [toString value], false)

/-- Quadrant 1, funct3 `110`/`111` (`c.beqz`/`c.bnez`), lines 442-460. -/
def q1_beqz_bnez (tags : Nat → Option String) (adr cmd16 : Nat) :
    Option (String × List String × Bool) := do
  let cmd_name := if get_segment cmd16 13 15 = "110" then "c.beqz" else "c.bnez"
  let r1 ← get_reg (get_unsigned cmd16 7 9 + 8)
  let value := get_signed (cb_uvalue cmd16) 0 8
  match tags (wrap32 adr value) with
  | some name => some (cmd_name, [r1] ++ [name], false)
  | none => some (cmd_name, [r1] ++ [toString value], false)

/-- Quadrant 1 (`"01"`), lines 323-461, assembled from the branch bodies above. -/
def decode_q1 (tags : Nat → Option String) (adr cmd16 : Nat) :
    Option (String × List String × Bool) :=
  if get_segment cmd16 2 15 = "00000000000000" then
    some ("c.nop", [], false)
  else
    let type := get_segment cmd16 13 15
    if type = "000" then q1_addi cmd16
    else if type = "001" then q1_cjal tags adr cmd16
    else if type = "010" then q1_cli cmd16
    else if type = "011" ∧ get_unsigned cmd16 7 11 = 2 then q1_addi16sp cmd16
    else if type = "011" then q1_clui cmd16
    else if type = "100" then q1_arith cmd16
    else if type = "101" then q1_cj tags adr cmd16
    else if type = "110" ∨ type = "111" then q1_beqz_bnez tags adr cmd16
    else
      some ("", [], false)

/-- Quadrant 2 (`"10"`), lines 462-559. -/
def decode_q2 (cmd16 : Nat) : Option (String × List String × Bool) :=
  let type := get_segment cmd16 13 15
  if type = "000" then do
    let uvalue := (get_unsigned cmd16 12 12 <<< 5) + get_unsigned cmd16 2 6
    let r1 ← get_reg (get_unsigned cmd16 7 11)
    let r2 ← get_reg (get_unsigned cmd16 7 11)
    some ("c.slli", [r1, r2, toString uvalue], false)
  else if type = "001" then do
    let uvalue := (get_unsigned cmd16 12 12 <<< 5) + (get_unsigned cmd16 5 6 <<< 3) +
        (get_unsigned cmd16 2 4 <<< 6)
    let r1 ← get_reg (get_unsigned cmd16 7 11)
    let r2 ← get_reg 2
    some ("c.fldsp", [r1, toString uvalue, r2], true)
  else if type = "010" then do
    let uvalue := (get_unsigned cmd16 12 12 <<< 5) + (get_unsigned cmd16 4 6 <<< 2) +
        (get_unsigned cmd16 2 3 <<< 6)
    let r1 ← get_reg (get_unsigned cmd16 7 11)
    let r2 ← get_reg 2
    some ("c.lwsp", [r1, toString uvalue, r2], true)
  else if type = "011" then do
    let uvalue := (get_unsigned cmd16 12 12 <<< 5) + (get_unsigned cmd16 4 6 <<< 2) +
        (get_unsigned cmd16 2 3 <<< 6)
    let r1 ← get_reg (get_unsigned cmd16 7 11)
    let r2 ← get_reg 2
    some ("c.flwsp", [r1, toString uvalue, r2], true)
  else if type = "100" then
    if get_segment cmd16 2 6 ≠ "00000" then
      if get_segment cmd16 12 12 = "1" then do
        let r1 ← get_reg (get_unsigned cmd16 7 11)
        let r2 ← get_reg (get_unsigned cmd16 7 11)
        let r3 ← get_reg (get_unsigned cmd16 2 6)
        some ("c.add", [r1, r2, r3], false)
      else do
        let r1 ← get_reg (get_unsigned cmd16 7 11)
        let r2 ← get_reg (get_unsigned cmd16 2 6)
        some ("c.mv", [r1, r2], false)
    else
      if get_segment cmd16 7 15 = "100100000" then
        some ("c.ebreak", [], false)
      else do
        let r1 ← get_reg (get_unsigned cmd16 7 11)
        let cmd_name := if get_segment cmd16 12 12 = "0" then "c.jr" else "c.jalr"
        some (cmd_name, [r1], false)
  else if type = "101" then do
    let uvalue := (get_unsigned cmd16 10 12 <<< 3) + (get_unsigned cmd16 7 9 <<< 6)
    let r1 ← get_reg (get_unsigned cmd16 2 6)
    let r2 ← get_reg 2
    some ("c.fsdsp", [r1, toString uvalue, r2], true)
  else do
    let cmd_name := if type = "110" then "c.swsp" else "c.fswsp"
    let uvalue := (get_unsigned cmd16 9 12 <<< 2) + (get_unsigned cmd16 7 8 <<< 6)
    let r1 ← get_reg (get_unsigned cmd16 2 6)
    let r2 ← get_reg 2
    some (cmd_name, [r1, toString uvalue, r2], true)

/-- Opcode `0110111` (lui), lines 560-566. -/
def decode_lui (cmd32 : Nat) : Option (String × List String × Bool) := do
  let r1 ← get_reg (get_unsigned cmd32 7 11)
  some ("lui", [r1, toString (get_signed (get_unsigned cmd32 12 31 <<< 12) 0 31)], false)

/-- Opcode `0010111` (auipc), lines 567-574. -/
def decode_auipc (cmd32 : Nat) : Option (String × List String × Bool) := do
  let value := get_signed (get_unsigned cmd32 12 31 <<< 12) 0 31
  let r1 ← get_reg (get_unsigned cmd32 7 11)
  some ("auipc", [r1, toString value], false)

/-- Opcode `0010011` (OP-IMM), lines 575-612. -/
def decode_op_imm (cmd32 : Nat) : Option (String × List String × Bool) :=
  let type := get_segment cmd32 12 14
  if type ≠ "001" ∧ type ≠ "101" then do
    let cmd_name := if type = "000" then "addi" else if type = "010" then "slti"
        else if type = "011" then "sltiu" else if type = "100" then "xori"
        else if type = "110" then "ori" else if type = "111" then "andi" else ""
    let r1 ← get_reg (get_unsigned cmd32 7 11)
    let r2 ← get_reg (get_unsigned cmd32 15 19)
    some (cmd_name, [r1, r2, toString (get_signed (get_unsigned cmd32 20 31) 0 11)], false)
  else do
    let r1 ← get_reg (get_unsigned cmd32 7 11)
    let r2 ← get_reg (get_unsigned cmd32 15 19)
    let args := [r1, r2, toString (get_unsigned cmd32 20 24)]
    let cmd_name := if type = "001" then "slli"
        else if get_segment cmd32 30 30 = "0" then "srli" else "srai"
    some (cmd_name, args, false)

/-- Opcode `0110011` (OP), lines 613-667. -/
def decode_op (cmd32 : Nat) : Option (String × List String × Bool) :=
  if get_segment cmd32 25 26 = "00" then do
    let type := get_segment cmd32 27 31 ++ get_segment cmd32 12 14
    let r1 ← get_reg (get_unsigned cmd32 7 11)
    let r2 ← get_reg (get_unsigned cmd32 15 19)
    let r3 ← get_reg (get_unsigned cmd32 20 24)
    let cmd_name := if type = "00000000" then "add" else if type = "01000000" then "sub"
        else if type = "00000001" then "sll" else if type = "00000010" then "slt"
        else if type = "00000011" then "sltu" else if type = "00000100" then "xor"
        else if type = "00000101" then "srl" else if type = "01000101" then "sra"
        else if type = "00000110" then "or" else if type = "00000111" then "and" else ""
    some (cmd_name, [r1, r2, r3], false)
  else if get_segment cmd32 25 26 = "01" then do
    let type := get_segment cmd32 12 14
    let r1 ← get_reg (get_unsigned cmd32 7 11)
    let r2 ← get_reg (get_unsigned cmd32 15 19)
    let r3 ← get_reg (get_unsigned cmd32 20 24)
    let cmd_name := if type = "000" then "mul" else if type = "001" then "mulh"
        else if type = "010" then "mulhsu" else if type = "011" then "mulhu"
        else if type = "100" then "div" else if type = "101" then "divu"
        else if type = "110" then "rem" else "remu"
    some (cmd_name, [r1, r2, r3], false)
  else
    some ("", [], false)

/-- Opcode `0000011` (loads), lines 668-687; sets the load/store flag even
when funct3 matches no load (the mnemonic then stays empty). -/
def decode_load (cmd32 : Nat) : Option (String × List String × Bool) := do
  let type := get_segment cmd32 12 14
  let r1 ← get_reg (get_unsigned cmd32 7 11)
  let r2 ← get_reg (get_unsigned cmd32 15 19)
  let cmd_name := if type = "000" then "lb" else if type = "001" then "lh"
      else if type = "010" then "lw" else if type = "100" then "lbu"
      else if type = "101" then "lhu" else ""
  some (cmd_name, [r1, toString (get_signed cmd32 20 31), r2], true)

/-- Opcode `0100011` (stores), lines 688-703. -/
def decode_store (cmd32 : Nat) : Option (String × List String × Bool) := do
  let type := get_segment cmd32 12 14
  let r1 ← get_reg (get_unsigned cmd32 20 24)
  let r2 ← get_reg (get_unsigned cmd32 15 19)
  let cmd_name := if type = "000" then "sb" else if type = "001" then "sh"
      else if type = "010" then "sw" else ""
  some (cmd_name,
    [r1, toString (get_signed ((get_unsigned cmd32 25 31 <<< 5) + get_unsigned cmd32 7 11) 0 11),
     r2], true)

/-- Opcode `1101111` (jal), lines 704-717. Note the source extracts the `rd`
register field with `get_signed(cmd32, 7, 11)` (not `get_unsigned`), and the
resulting `int` is implicitly converted to the `uint32_t` parameter of
`get_reg`. -/
def decode_jal (tags : Nat → Option String) (adr cmd32 : Nat) :
    Option (String × List String × Bool) := do
  let r1 ← get_reg (to_uint32 (get_signed cmd32 7 11))
  let value := get_signed (jal_uvalue cmd32) 0 20
  match tags (wrap32 adr value) with
  | some name => some ("jal", [r1] ++ [name], false)
  | none => some ("jal", [r1] ++ [toString value], false)

/-- Opcode `1100111` (jalr), lines 718-726. -/
def decode_jalr (cmd32 : Nat) : Option (String × List String × Bool) := do
  let r1 ← get_reg (get_unsigned cmd32 7 11)
  let r2 ← get_reg (get_unsigned cmd32 15 19)
  let value := get_signed (get_unsigned cmd32 20 31) 0 11
  some ("jalr", [r1, r2] ++ [toString value], false)

/-- Opcode `1100011` (conditional branches), lines 727-756. -/
def decode_branch (tags : Nat → Option String) (adr cmd32 : Nat) :
    Option (String × List String × Bool) := do
  let r1 ← get_reg (get_unsigned cmd32 15 19)
  let r2 ← get_reg (get_unsigned cmd32 20 24)
  let type := get_segment cmd32 12 14
  let cmd_name := if type = "000" then "beq" else if type = "001" then "bne"
      else if type = "100" then "blt" else if type = "101" then "bge"
      else if type = "110" then "bltu" else if type = "111" then "bgeu" else ""
  let value := get_signed (br_uvalue cmd32) 0 12
  match tags (wrap32 adr value) with
  | some name => some (cmd_name, [r1, r2] ++ [name], false)
  | none => some (cmd_name, [r1, r2] ++ [toString value], false)

/-- Packages a compressed-quadrant result: 2 bytes consumed. -/
def mk16 (cmd16 : Nat) (x : String × List String × Bool) : Decoded :=
  ⟨x.1, x.2.1, x.2.2, 2, DispatchPath.compressed, cmd16⟩

/-- Wraps a base-opcode branch body: `get_cmd32` reads two further bytes
(`none` models a read past the end of the stream) and the branch consumes
4 bytes in total. -/
def with32 (cmd16 : Nat) (next16 : Option Nat)
    (body : Nat → Option (String × List String × Bool)) : Option Decoded :=
  match next16 with
  | none => none
  | some nxt =>
    let cmd32 := get_cmd32 nxt cmd16
    (body cmd32).map fun x => ⟨x.1, x.2.1, x.2.2, 4, DispatchPath.base, cmd32⟩

/-- The nine base-opcode `else if` branches of the loop body (lines 560-757)
plus the final fall-through (no branch matched: nothing is read or decoded and
the mnemonic stays empty). -/
def decode_base (tags : Nat → Option String) (adr cmd16 : Nat) (next16 : Option Nat) :
    Option Decoded :=
  if get_segment cmd16 0 6 = "0110111" then with32 cmd16 next16 decode_lui
  else if get_segment cmd16 0 6 = "0010111" then with32 cmd16 next16 decode_auipc
  else if get_segment cmd16 0 6 = "0010011" then with32 cmd16 next16 decode_op_imm
  else if get_segment cmd16 0 6 = "0110011" then with32 cmd16 next16 decode_op
  else if get_segment cmd16 0 6 = "0000011" then with32 cmd16 next16 decode_load
  else if get_segment cmd16 0 6 = "0100011" then with32 cmd16 next16 decode_store
  else if get_segment cmd16 0 6 = "1101111" then with32 cmd16 next16 (decode_jal tags adr)
  else if get_segment cmd16 0 6 = "1100111" then with32 cmd16 next16 decode_jalr
  else if get_segment cmd16 0 6 = "1100011" then with32 cmd16 next16 (decode_branch tags adr)
  else some ⟨"", [], false, 2, DispatchPath.unmatched, cmd16⟩

/-- One iteration of the `parse_text` loop after `cmd16` has been read,
mirroring the `if`/`else if` chain of lines 274-757: `adr` is the current
offset inside `.text` and `next16` the next half-word of the stream (if any),
which is read only by the `get_cmd32` branches. -/
def decode_step (tags : Nat → Option String) (adr cmd16 : Nat) (next16 : Option Nat) :
    Option Decoded :=
  if get_segment cmd16 0 1 = "00" then (decode_q0 cmd16).map (mk16 cmd16)
  else if get_segment cmd16 0 1 = "01" then (decode_q1 tags adr cmd16).map (mk16 cmd16)
  else if get_segment cmd16 0 1 = "10" then (decode_q2 cmd16).map (mk16 cmd16)
  else decode_base tags adr cmd16 next16

/-- The empty tags mapping. -/
def no_tags : Nat → Option String := fun _ => none

/-! ## The emitter (`print_cmd`) and the driver loop (`parse_text`) -/

/-- Lowercase hexadecimal digit, as printed by `%x`. -/
def hexChar (n : Nat) : Char := if n < 10 then Char.ofNat (48 + n) else Char.ofNat (87 + n)

/-- Uppercase hexadecimal digit, as printed by `%X`. -/
def hexCharU (n : Nat) : Char := if n < 10 then Char.ofNat (48 + n) else Char.ofNat (55 + n)

/-- Digit-list accumulator for hexadecimal rendering; the `fuel` only makes
the recursion structural (`fuel > n` suffices since `n` shrinks by `/16`). -/
def hexGo (dig : Nat → Char) : Nat → Nat → List Char → List Char
  | 0, _, acc => acc
  | fuel + 1, n, acc =>
    if n < 16 then dig n :: acc
    else hexGo dig fuel (n / 16) (dig (n % 16) :: acc)

/-- Minimal lowercase hexadecimal rendering of `n` (`%x`). -/
def hexStr (n : Nat) : String := String.mk (hexGo hexChar (n + 1) n [])

/-- Minimal uppercase hexadecimal rendering of `n` (`%X`). -/
def hexStrU (n : Nat) : String := String.mk (hexGo hexCharU (n + 1) n [])

/-- Left-pad `s` with `c` to width `n` (no-op when already at least that wide). -/
def padLeftWith (c : Char) (s : String) (n : Nat) : String :=
  if s.length < n then String.mk (List.replicate (n - s.length) c) ++ s else s

/-- The `printf` width `%Ns`: right-justify in an `n`-column field. -/
def pad_left (s : String) (n : Nat) : String := padLeftWith ' ' s n

/-- The `printf` width `%-Ns`: left-justify (pad on the right) in an `n`-column field. -/
def pad_right (s : String) (n : Nat) : String :=
  if s.length < n then s ++ String.mk (List.replicate (n - s.length) ' ') else s

/-- The call `sprintf` with format `%08x` on `adr`: lowercase hex, zero-padded to 8 digits. -/
def hex8 (adr : Nat) : String := padLeftWith '0' (hexStr adr) 8

/-- Model of `Parser::print_cmd`: the address/tag title followed by the body chosen
from the `print_format` table by the load/store flag and the argument count;
`none` models the thrown `std::invalid_argument` for counts outside 1..4. -/
def print_cmd (adr : Nat) (tag : String) (args : List String) (is_load_store : Bool) :
    Option String :=
  let title := if tag = "" then hex8 adr ++ String.mk (List.replicate 13 ' ')
      else hex8 adr ++ " " ++ pad_left tag 10 ++ ": "
  let body : Option String :=
    match is_load_store, args with
    | false, [a] => some (a ++ "\n")
    | false, [a, b] => some (a ++ " " ++ b ++ "\n")
    | false, [a, b, c] => some (a ++ " " ++ b ++ ", " ++ c ++ "\n")
    | false, [a, b, c, d] => some (a ++ " " ++ b ++ ", " ++ c ++ ", " ++ d ++ "\n")
    | true, [a] => some (a ++ "()\n")
    | true, [a, b] => some (a ++ "(" ++ b ++ ")\n")
    | true, [a, b, c] => some (a ++ " " ++ b ++ "(" ++ c ++ ")\n")
    | true, [a, b, c, d] => some (a ++ " " ++ b ++ ", " ++ c ++ "(" ++ d ++ ")\n")
    | _, _ => none
  body.map (fun b => title ++ b)

/-- The loop-local `tag`: `tags.count(adr) ? tags[adr] : ""`. -/
def tag_at (tags : Nat → Option String) (adr : Nat) : String := (tags adr).getD ""

/-- Little-endian 16-bit read of the next two stream bytes, if present. -/
def read16 : List Nat → Option Nat
  | b0 :: b1 :: _ => some (b0 ||| (b1 <<< 8))
  | _ => none

/-- The body of the `parse_text` loop over the remaining `.text` bytes: one
output entry per iteration, `some adr` marking the lines that carry an address
prefix and `none` the `unknown_command` placeholder. A decoder exception or a
read past the end of the section aborts the run (the lines already written
remain). Every iteration consumes at least two bytes, so the `fuel` parameter
(instantiated with `bytes.length` in `parse_text_go`) never runs out; it only
makes the recursion structural. -/
def parse_text_fuel (tags : Nat → Option String) :
    Nat → Nat → List Nat → List (Option Nat × String)
  | 0, _, _ => []
  | fuel + 1, adr, bytes =>
    match bytes with
    | b0 :: b1 :: rest =>
      let cmd16 := b0 ||| (b1 <<< 8)
      match decode_step tags adr cmd16 (read16 rest) with
      | none => []
      | some d =>
        if d.cmd_name = "" then
          (none, "unknown_command\n") ::
            parse_text_fuel tags fuel (adr + d.consumed) (rest.drop (d.consumed - 2))
        else
          match print_cmd adr (tag_at tags adr) (d.cmd_name :: d.args) d.is_load_store with
          | none => []
          | some line =>
            (some adr, line) ::
              parse_text_fuel tags fuel (adr + d.consumed) (rest.drop (d.consumed - 2))
    | _ => []

/-- The `parse_text` loop from offset `adr` on the given `.text` bytes. -/
def parse_text_go (tags : Nat → Option String) (adr : Nat) (bytes : List Nat) :
    List (Option Nat × String) :=
  parse_text_fuel tags bytes.length adr bytes

/-! ## The `.symtab` dump (`parse_symtab`) -/

/-- Model of `Parser::get_type`; `none` models the thrown exception. -/
def get_type (x : Nat) : Option String :=
  match x &&& 15 with
  | 0 => some "NOTYPE"
  | 1 => some "OBJECT"
  | 2 => some "FUNC"
  | 3 => some "SECTION"
  | 4 => some "FILE"
  | 5 => some "COMMON"
  | 6 => some "TLS"
  | 10 => some "LOOS"
  | 12 => some "HIOS"
  | 13 => some "LOPROC"
  | 15 => some "HIPROC"
  | _ => none

/-- Model of `Parser::get_bind`; `none` models the thrown exception. -/
def get_bind (x : Nat) : Option String :=
  match x >>> 4 with
  | 0 => some "LOCAL"
  | 1 => some "GLOBAL"
  | 2 => some "WEAK"
  | 10 => some "LOOS"
  | 12 => some "HIOS"
  | 13 => some "LOPROC"
  | 15 => some "HIPROC"
  | _ => none

/-- Model of `Parser::get_visibility`. -/
def get_visibility (x : Nat) : String :=
  match x &&& 3 with
  | 0 => "DEFAULT"
  | 1 => "INTERNAL"
  | 2 => "HIDDEN"
  | _ => "PROTECTED"

/-- Model of `Parser::get_index`. -/
def get_index (x : Nat) : String :=
  if x = 0 then "UNDEF"
  else if x = 0xfff1 then "ABS"
  else if x = 0xff00 then "LOPROC"
  else if x = 0xff1f then "HIPROC"
  else if x = 0xff20 then "LOOS"
  else if x = 0xff3f then "HIOS"
  else if x = 0xfff2 then "COMMON"
  else if x = 0xffff then "XINDEX"
  else toString x

/-- One ELF32 symbol record (the fields `parse_symtab` prints). -/
structure Elf32_Sym where
  st_name : Nat
  st_value : Nat
  st_size : Nat
  st_info : Nat
  st_other : Nat
  st_shndx : Nat

/-- The `.symtab` header line produced by
`sprintf(buf, "%s %-15s %7s %-8s %-8s %-8s %6s %s\n", "Symbol", "Value",
"Size", "Type", "Bind", "Vis", "Index", "Name")`. -/
def symtab_header : String :=
  "Symbol" ++ " " ++ pad_right "Value" 15 ++ " " ++ pad_left "Size" 7 ++ " " ++
  pad_right "Type" 8 ++ " " ++ pad_right "Bind" 8 ++ " " ++ pad_right "Vis" 8 ++ " " ++
  pad_left "Index" 6 ++ " " ++ "Name" ++ "\n"

/-- One `.symtab` body line, produced by
`sprintf(buf, "[%4i] 0x%-15X %5i %-8s %-8s %-8s %6s %s\n", ...)` applied to the
symbol index, value, size, type name, bind name, visibility name,
section-index name and resolved name; `none` models the exceptions of
`get_type` / `get_bind`. -/
def symtab_line (id_in_section : Nat) (sym : Elf32_Sym) (name : String) : Option String := do
  let t ← get_type sym.st_info
  let b ← get_bind sym.st_info
  some ("[" ++ pad_left (toString id_in_section) 4 ++ "] 0x" ++
    pad_right (hexStrU sym.st_value) 15 ++ " " ++ pad_left (toString sym.st_size) 5 ++ " " ++
    pad_right t 8 ++ " " ++ pad_right b 8 ++ " " ++ pad_right (get_visibility sym.st_other) 8 ++
    " " ++ pad_left (get_index sym.st_shndx) 6 ++ " " ++ name ++ "\n")

/-! ## Per-decoder facts: mnemonic, operand count, label resolution -/

set_option maxHeartbeats 1600000 in
theorem decode_q0_spec (cmd16 : Nat) (x : String × List String × Bool)
    (h : decode_q0 cmd16 = some x) :
    x.1 ∈ (["c.addi4spn", "c.fld", "c.ld", "c.fsd", "c.lw", "c.flw", "c.sw", "c.fsw", ""] :
      List String) ∧ x.2.1.length ≤ 3 := by
  unfold decode_q0 at h
  repeat' (first
    | (split at h)
    | (obtain ⟨_, -, h⟩ := h)
    | (subst h)
    | (simp only [Option.bind_eq_bind, Option.bind_eq_some, Option.some_inj] at h))
  all_goals simp

theorem q1_addi_spec (cmd16 : Nat) (x : String × List String × Bool)
    (h : q1_addi cmd16 = some x) : x.1 = "c.addi" ∧ x.2.1.length ≤ 3 := by
  unfold q1_addi at h
  repeat' (first
    | (split at h)
    | (obtain ⟨_, -, h⟩ := h)
    | (subst h)
    | (simp only [Option.bind_eq_bind, Option.bind_eq_some, Option.some_inj] at h))
  all_goals simp

theorem q1_cjal_spec (tags : Nat → Option String) (adr cmd16 : Nat)
    (x : String × List String × Bool) (h : q1_cjal tags adr cmd16 = some x) :
    x.1 = "c.jal" ∧
      x.2.1.getLast? = some (resolve tags adr (get_signed (cj_uvalue cmd16) 0 11)) ∧
      x.2.1.length ≤ 3 := by
  unfold q1_cjal at h
  repeat' (first
    | (split at h)
    | (obtain ⟨_, -, h⟩ := h)
    | (subst h)
    | (simp only [Option.bind_eq_bind, Option.bind_eq_some, Option.some_inj] at h))
  all_goals simp_all [resolve]

theorem q1_cli_spec (cmd16 : Nat) (x : String × List String × Bool)
    (h : q1_cli cmd16 = some x) : x.1 = "c.li" ∧ x.2.1.length ≤ 3 := by
  unfold q1_cli at h
  repeat' (first
    | (split at h)
    | (obtain ⟨_, -, h⟩ := h)
    | (subst h)
    | (simp only [Option.bind_eq_bind, Option.bind_eq_some, Option.some_inj] at h))
  all_goals simp

theorem q1_addi16sp_spec (cmd16 : Nat) (x : String × List String × Bool)
    (h : q1_addi16sp cmd16 = some x) : x.1 = "c.addi16sp" ∧ x.2.1.length ≤ 3 := by
  unfold q1_addi16sp at h
  repeat' (first
    | (split at h)
    | (obtain ⟨_, -, h⟩ := h)
    | (subst h)
    | (simp only [Option.bind_eq_bind, Option.bind_eq_some, Option.some_inj] at h))
  all_goals simp

theorem q1_clui_spec (cmd16 : Nat) (x : String × List String × Bool)
    (h : q1_clui cmd16 = some x) : x.1 = "c.lui" ∧ x.2.1.length ≤ 3 := by
  unfold q1_clui at h
  repeat' (first
    | (split at h)
    | (obtain ⟨_, -, h⟩ := h)
    | (subst h)
    | (simp only [Option.bind_eq_bind, Option.bind_eq_some, Option.some_inj] at h))
  all_goals simp

set_option maxHeartbeats 1600000 in
theorem q1_arith_spec (cmd16 : Nat) (x : String × List String × Bool)
    (h : q1_arith cmd16 = some x) :
    x.1 ∈ (["c.srli", "c.srai", "c.andi", "c.sub", "c.xor", "c.or", "c.and", "c.subw",
      "c.addw", ""] : List String) ∧ x.2.1.length ≤ 3 := by
  unfold q1_arith at h
  repeat' (first
    | (split at h)
    | (obtain ⟨_, -, h⟩ := h)
    | (subst h)
    | (simp only [Option.bind_eq_bind, Option.bind_eq_some, Option.some_inj] at h))
  all_goals simp

theorem q1_cj_spec (tags : Nat → Option String) (adr cmd16 : Nat)
    (x : String × List String × Bool) (h : q1_cj tags adr cmd16 = some x) :
    x.1 = "c.j" ∧
      x.2.1.getLast? = some (resolve tags adr (get_signed (cj_uvalue cmd16) 0 11)) ∧
      x.2.1.length ≤ 3 := by
  unfold q1_cj at h
  repeat' (first
    | (split at h)
    | (obtain ⟨_, -, h⟩ := h)
    | (subst h)
    | (simp only [Option.bind_eq_bind, Option.bind_eq_some, Option.some_inj] at h))
  all_goals simp_all [resolve]

theorem q1_beqz_bnez_spec (tags : Nat → Option String) (adr cmd16 : Nat)
    (x : String × List String × Bool) (h : q1_beqz_bnez tags adr cmd16 = some x) :
    (x.1 = "c.beqz" ∨ x.1 = "c.bnez") ∧
      x.2.1.getLast? = some (resolve tags adr (get_signed (cb_uvalue cmd16) 0 8)) ∧
      x.2.1.length ≤ 3 := by
  unfold q1_beqz_bnez at h
  repeat' (first
    | (split at h)
    | (obtain ⟨_, -, h⟩ := h)
    | (subst h)
    | (simp only [Option.bind_eq_bind, Option.bind_eq_some, Option.some_inj] at h))
  all_goals simp_all [resolve]

theorem decode_q1_spec (tags : Nat → Option String) (adr cmd16 : Nat)
    (x : String × List String × Bool) (h : decode_q1 tags adr cmd16 = some x) :
    x.1 ∈ (["c.nop", "c.addi", "c.jal", "c.li", "c.addi16sp", "c.lui", "c.srli", "c.srai",
        "c.andi", "c.sub", "c.xor", "c.or", "c.and", "c.subw", "c.addw", "c.j", "c.beqz",
        "c.bnez", ""] : List String) ∧
      x.2.1.length ≤ 3 ∧
      (x.1 = "c.jal" ∨ x.1 = "c.j" →
        x.2.1.getLast? = some (resolve tags adr (get_signed (cj_uvalue cmd16) 0 11))) ∧
      (x.1 = "c.beqz" ∨ x.1 = "c.bnez" →
        x.2.1.getLast? = some (resolve tags adr (get_signed (cb_uvalue cmd16) 0 8))) := by
  simp only [decode_q1] at h
  split at h
  · simp only [Option.some_inj] at h; subst h; simp
  · split at h
    · obtain ⟨hn, hl⟩ := q1_addi_spec _ _ h
      refine ⟨by simp [hn], hl, by simp [hn], by simp [hn]⟩
    · split at h
      · obtain ⟨hn, hr, hl⟩ := q1_cjal_spec _ _ _ _ h
        refine ⟨by simp [hn], hl, fun _ => hr, by simp [hn]⟩
      · split at h
        · obtain ⟨hn, hl⟩ := q1_cli_spec _ _ h
          refine ⟨by simp [hn], hl, by simp [hn], by simp [hn]⟩
        · split at h
          · obtain ⟨hn, hl⟩ := q1_addi16sp_spec _ _ h
            refine ⟨by simp [hn], hl, by simp [hn], by simp [hn]⟩
          · split at h
            · obtain ⟨hn, hl⟩ := q1_clui_spec _ _ h
              refine ⟨by simp [hn], hl, by simp [hn], by simp [hn]⟩
            · split at h
              · obtain ⟨hn, hl⟩ := q1_arith_spec _ _ h
                simp only [List.mem_cons, List.not_mem_nil, or_false] at hn
                have hnot : x.1 ≠ "c.jal" ∧ x.1 ≠ "c.j" ∧ x.1 ≠ "c.beqz" ∧ x.1 ≠ "c.bnez" := by
                  rcases hn with h | h | h | h | h | h | h | h | h | h <;> simp [h]
                refine ⟨by rcases hn with h | h | h | h | h | h | h | h | h | h <;> simp [h],
                  hl, by simp [hnot.1, hnot.2.1], by simp [hnot.2.2.1, hnot.2.2.2]⟩
              · split at h
                · obtain ⟨hn, hr, hl⟩ := q1_cj_spec _ _ _ _ h
                  refine ⟨by simp [hn], hl, fun _ => hr, by simp [hn]⟩
                · split at h
                  · obtain ⟨hn, hr, hl⟩ := q1_beqz_bnez_spec _ _ _ _ h
                    refine ⟨by rcases hn with h | h <;> simp [h], hl,
                      by rcases hn with h | h <;> simp [h], fun _ => hr⟩
                  · simp only [Option.some_inj] at h; subst h; simp

set_option maxHeartbeats 1600000 in
theorem decode_q2_spec (cmd16 : Nat) (x : String × List String × Bool)
    (h : decode_q2 cmd16 = some x) :
    x.1 ∈ (["c.slli", "c.fldsp", "c.lwsp", "c.flwsp", "c.add", "c.mv", "c.ebreak", "c.jr",
      "c.jalr", "c.fsdsp", "c.swsp", "c.fswsp", ""] : List String) ∧ x.2.1.length ≤ 3 := by
  unfold decode_q2 at h
  repeat' (first
    | (split at h)
    | (obtain ⟨_, -, h⟩ := h)
    | (subst h)
    | (simp only [Option.bind_eq_bind, Option.bind_eq_some, Option.some_inj] at h))
  all_goals simp

theorem decode_lui_spec (cmd32 : Nat) (x : String × List String × Bool)
    (h : decode_lui cmd32 = some x) :
    x.1 = "lui" ∧
      x.2.1.getLast? = some (toString (get_signed (get_unsigned cmd32 12 31 <<< 12) 0 31)) ∧
      x.2.1.length ≤ 3 := by
  unfold decode_lui at h
  repeat' (first
    | (split at h)
    | (obtain ⟨_, -, h⟩ := h)
    | (subst h)
    | (simp only [Option.bind_eq_bind, Option.bind_eq_some, Option.some_inj] at h))
  all_goals simp

theorem decode_auipc_spec (cmd32 : Nat) (x : String × List String × Bool)
    (h : decode_auipc cmd32 = some x) : x.1 = "auipc" ∧ x.2.1.length ≤ 3 := by
  unfold decode_auipc at h
  repeat' (first
    | (split at h)
    | (obtain ⟨_, -, h⟩ := h)
    | (subst h)
    | (simp only [Option.bind_eq_bind, Option.bind_eq_some, Option.some_inj] at h))
  all_goals simp

set_option maxHeartbeats 1600000 in
theorem decode_op_imm_spec (cmd32 : Nat) (x : String × List String × Bool)
    (h : decode_op_imm cmd32 = some x) :
    x.1 ∈ (["addi", "slti", "sltiu", "xori", "ori", "andi", "slli", "srli", "srai", ""] :
      List String) ∧ x.2.1.length ≤ 3 := by
  unfold decode_op_imm at h
  repeat' (first
    | (split at h)
    | (obtain ⟨_, -, h⟩ := h)
    | (subst h)
    | (simp only [Option.bind_eq_bind, Option.bind_eq_some, Option.some_inj] at h))
  all_goals simp

set_option maxHeartbeats 1600000 in
theorem decode_op_spec (cmd32 : Nat) (x : String × List String × Bool)
    (h : decode_op cmd32 = some x) :
    x.1 ∈ (["add", "sub", "sll", "slt", "sltu", "xor", "srl", "sra", "or", "and", "mul",
      "mulh", "mulhsu", "mulhu", "div", "divu", "rem", "remu", ""] : List String) ∧
      x.2.1.length ≤ 3 := by
  unfold decode_op at h
  repeat' (first
    | (split at h)
    | (obtain ⟨_, -, h⟩ := h)
    | (subst h)
    | (simp only [Option.bind_eq_bind, Option.bind_eq_some, Option.some_inj] at h))
  all_goals simp

set_option maxHeartbeats 1600000 in
theorem decode_load_spec (cmd32 : Nat) (x : String × List String × Bool)
    (h : decode_load cmd32 = some x) :
    x.1 ∈ (["lb", "lh", "lw", "lbu", "lhu", ""] : List String) ∧ x.2.1.length ≤ 3 := by
  unfold decode_load at h
  repeat' (first
    | (split at h)
    | (obtain ⟨_, -, h⟩ := h)
    | (subst h)
    | (simp only [Option.bind_eq_bind, Option.bind_eq_some, Option.some_inj] at h))
  all_goals simp

set_option maxHeartbeats 1600000 in
theorem decode_store_spec (cmd32 : Nat) (x : String × List String × Bool)
    (h : decode_store cmd32 = some x) :
    x.1 ∈ (["sb", "sh", "sw", ""] : List String) ∧ x.2.1.length ≤ 3 := by
  unfold decode_store at h
  repeat' (first
    | (split at h)
    | (obtain ⟨_, -, h⟩ := h)
    | (subst h)
    | (simp only [Option.bind_eq_bind, Option.bind_eq_some, Option.some_inj] at h))
  all_goals simp

theorem decode_jal_spec (tags : Nat → Option String) (adr cmd32 : Nat)
    (x : String × List String × Bool) (h : decode_jal tags adr cmd32 = some x) :
    x.1 = "jal" ∧
      x.2.1.getLast? = some (resolve tags adr (get_signed (jal_uvalue cmd32) 0 20)) ∧
      x.2.1.length ≤ 3 := by
  unfold decode_jal at h
  repeat' (first
    | (split at h)
    | (obtain ⟨_, -, h⟩ := h)
    | (subst h)
    | (simp only [Option.bind_eq_bind, Option.bind_eq_some, Option.some_inj] at h))
  all_goals simp_all [resolve]

theorem decode_jalr_spec (cmd32 : Nat) (x : String × List String × Bool)
    (h : decode_jalr cmd32 = some x) : x.1 = "jalr" ∧ x.2.1.length ≤ 3 := by
  unfold decode_jalr at h
  repeat' (first
    | (split at h)
    | (obtain ⟨_, -, h⟩ := h)
    | (subst h)
    | (simp only [Option.bind_eq_bind, Option.bind_eq_some, Option.some_inj] at h))
  all_goals simp

set_option maxHeartbeats 1600000 in
theorem decode_branch_spec (tags : Nat → Option String) (adr cmd32 : Nat)
    (x : String × List String × Bool) (h : decode_branch tags adr cmd32 = some x) :
    x.1 ∈ (["beq", "bne", "blt", "bge", "bltu", "bgeu", ""] : List String) ∧
      x.2.1.getLast? = some (resolve tags adr (get_signed (br_uvalue cmd32) 0 12)) ∧
      x.2.1.length ≤ 3 := by
  unfold decode_branch at h
  repeat' (first
    | (split at h)
    | (obtain ⟨_, -, h⟩ := h)
    | (subst h)
    | (simp only [Option.bind_eq_bind, Option.bind_eq_some, Option.some_inj] at h))
  all_goals simp_all [resolve]

/-! ## Bridging `get_segment` strings with arithmetic on the word -/

theorem get_segment_0_1 (m : Nat) :
    get_segment m 0 1 = String.mk [(if (m >>> 1) % 2 = 1 then '1' else '0'),
      (if (m >>> 0) % 2 = 1 then '1' else '0')] := rfl

theorem get_segment_0_6 (m : Nat) :
    get_segment m 0 6 = String.mk [(if (m >>> 6) % 2 = 1 then '1' else '0'),
      (if (m >>> 5) % 2 = 1 then '1' else '0'), (if (m >>> 4) % 2 = 1 then '1' else '0'),
      (if (m >>> 3) % 2 = 1 then '1' else '0'), (if (m >>> 2) % 2 = 1 then '1' else '0'),
      (if (m >>> 1) % 2 = 1 then '1' else '0'), (if (m >>> 0) % 2 = 1 then '1' else '0')] := rfl

theorem bitchar_eq_one_iff {p : Prop} [Decidable p] :
    ((if p then '1' else '0') = '1') ↔ p := by split <;> simp_all

/-- The opcode-quadrant string of a word determines, and is determined by,
the word's lowest two bits. -/
theorem seg01_iff (m : Nat) :
    (get_segment m 0 1 = "00" ↔ m % 4 = 0) ∧ (get_segment m 0 1 = "01" ↔ m % 4 = 1) ∧
    (get_segment m 0 1 = "10" ↔ m % 4 = 2) ∧ (get_segment m 0 1 = "11" ↔ m % 4 = 3) := by
  have e : get_segment m 0 1 = String.mk [(if m / 2 % 2 = 1 then '1' else '0'),
      (if m % 2 = 1 then '1' else '0')] := by
    rw [get_segment_0_1, Nat.shiftRight_zero, Nat.shiftRight_eq_div_pow, pow_one]
  have hb0 : m % 2 = 0 ∨ m % 2 = 1 := by omega
  have hb1 : m / 2 % 2 = 0 ∨ m / 2 % 2 = 1 := by omega
  rcases hb0 with h0 | h0 <;> rcases hb1 with h1 | h1
  · have h4 : m % 4 = 0 := by omega
    rw [e, h0, h1, h4]; decide
  · have h4 : m % 4 = 2 := by omega
    rw [e, h0, h1, h4]; decide
  · have h4 : m % 4 = 1 := by omega
    rw [e, h0, h1, h4]; decide
  · have h4 : m % 4 = 3 := by omega
    rw [e, h0, h1, h4]; decide

/-- A word whose 7-bit opcode string ends in `"11"` has lowest two bits `11`. -/
theorem mod4_of_opcode {m : Nat} (s : String) (h : get_segment m 0 6 = s)
    (h1 : s.data.get? 5 = some '1') (h0 : s.data.get? 6 = some '1') : m % 4 = 3 := by
  rw [get_segment_0_6] at h
  subst h
  simp only [List.get?] at h1 h0
  rw [Option.some_inj] at h1 h0
  have hb1 : (m >>> 1) % 2 = 1 := bitchar_eq_one_iff.mp h1
  have hb0 : (m >>> 0) % 2 = 1 := bitchar_eq_one_iff.mp h0
  rw [Nat.shiftRight_eq_div_pow, pow_one] at hb1
  rw [Nat.shiftRight_zero] at hb0
  omega

/-- The nine 7-bit opcode strings the driver recognizes for the 32-bit path. -/
def base_opcodes : List String :=
  ["0110111", "0010111", "0010011", "0110011", "0000011", "0100011", "1101111", "1100111",
   "1100011"]

theorem mod4_of_mem_base {m : Nat} (h : get_segment m 0 6 ∈ base_opcodes) : m % 4 = 3 := by
  simp only [base_opcodes, List.mem_cons, List.not_mem_nil, or_false] at h
  rcases h with h | h | h | h | h | h | h | h | h <;>
    exact mod4_of_opcode _ h (by rfl) (by rfl)

/-! ## Facts about one driver iteration (`decode_step`) -/

theorem map_mk16_spec (cmd16 : Nat) (o : Option (String × List String × Bool)) (d : Decoded)
    (h : o.map (mk16 cmd16) = some d) :
    ∃ x, o = some x ∧ d = ⟨x.1, x.2.1, x.2.2, 2, DispatchPath.compressed, cmd16⟩ := by
  rw [Option.map_eq_some'] at h
  obtain ⟨x, hx, hd⟩ := h
  exact ⟨x, hx, hd.symm⟩

theorem with32_spec (cmd16 : Nat) (next16 : Option Nat)
    (body : Nat → Option (String × List String × Bool)) (d : Decoded)
    (h : with32 cmd16 next16 body = some d) :
    ∃ nxt x, next16 = some nxt ∧ body (get_cmd32 nxt cmd16) = some x ∧
      d = ⟨x.1, x.2.1, x.2.2, 4, DispatchPath.base, get_cmd32 nxt cmd16⟩ := by
  unfold with32 at h
  rcases next16 with _ | nxt
  · simp at h
  · rw [Option.map_eq_some'] at h
    obtain ⟨x, hx, hd⟩ := h
    exact ⟨nxt, x, rfl, hx, hd.symm⟩

/-- Every successful base-stage iteration hands the emitter at most three
operands and consumes exactly 2 (fall-through) or 4 bytes. -/
theorem decode_base_spec (tags : Nat → Option String) (adr cmd16 : Nat) (next16 : Option Nat)
    (d : Decoded) (h : decode_base tags adr cmd16 next16 = some d) :
    d.args.length ≤ 3 ∧ (d.consumed = 2 ∨ d.consumed = 4) := by
  unfold decode_base at h
  split at h
  · obtain ⟨nxt, x, hn, hx, hd⟩ := with32_spec _ _ _ _ h
    subst hd; exact ⟨(decode_lui_spec _ _ hx).2.2, Or.inr rfl⟩
  · split at h
    · obtain ⟨nxt, x, hn, hx, hd⟩ := with32_spec _ _ _ _ h
      subst hd; exact ⟨(decode_auipc_spec _ _ hx).2, Or.inr rfl⟩
    · split at h
      · obtain ⟨nxt, x, hn, hx, hd⟩ := with32_spec _ _ _ _ h
        subst hd; exact ⟨(decode_op_imm_spec _ _ hx).2, Or.inr rfl⟩
      · split at h
        · obtain ⟨nxt, x, hn, hx, hd⟩ := with32_spec _ _ _ _ h
          subst hd; exact ⟨(decode_op_spec _ _ hx).2, Or.inr rfl⟩
        · split at h
          · obtain ⟨nxt, x, hn, hx, hd⟩ := with32_spec _ _ _ _ h
            subst hd; exact ⟨(decode_load_spec _ _ hx).2, Or.inr rfl⟩
          · split at h
            · obtain ⟨nxt, x, hn, hx, hd⟩ := with32_spec _ _ _ _ h
              subst hd; exact ⟨(decode_store_spec _ _ hx).2, Or.inr rfl⟩
            · split at h
              · obtain ⟨nxt, x, hn, hx, hd⟩ := with32_spec _ _ _ _ h
                subst hd; exact ⟨(decode_jal_spec _ _ _ _ hx).2.2, Or.inr rfl⟩
              · split at h
                · obtain ⟨nxt, x, hn, hx, hd⟩ := with32_spec _ _ _ _ h
                  subst hd; exact ⟨(decode_jalr_spec _ _ hx).2, Or.inr rfl⟩
                · split at h
                  · obtain ⟨nxt, x, hn, hx, hd⟩ := with32_spec _ _ _ _ h
                    subst hd; exact ⟨(decode_branch_spec _ _ _ _ hx).2.2, Or.inr rfl⟩
                  · rw [Option.some_inj] at h
                    subst h; exact ⟨by simp, Or.inl rfl⟩

/-- Every successful iteration hands the emitter at most three operands and
consumes exactly 2 or 4 bytes. -/
theorem decode_step_spec (tags : Nat → Option String) (adr cmd16 : Nat) (next16 : Option Nat)
    (d : Decoded) (h : decode_step tags adr cmd16 next16 = some d) :
    d.args.length ≤ 3 ∧ (d.consumed = 2 ∨ d.consumed = 4) := by
  unfold decode_step at h
  split at h
  · obtain ⟨x, hx, hd⟩ := map_mk16_spec _ _ _ h
    subst hd; exact ⟨(decode_q0_spec _ _ hx).2, Or.inl rfl⟩
  · split at h
    · obtain ⟨x, hx, hd⟩ := map_mk16_spec _ _ _ h
      subst hd; exact ⟨(decode_q1_spec _ _ _ _ hx).2.1, Or.inl rfl⟩
    · split at h
      · obtain ⟨x, hx, hd⟩ := map_mk16_spec _ _ _ h
        subst hd; exact ⟨(decode_q2_spec _ _ hx).2, Or.inl rfl⟩
      · exact decode_base_spec _ _ _ _ _ h

/-- Dispatch facts of the base stage: two more bytes are read and the word is
`(next half-word) << 16 | cmd16` exactly when the 7-bit opcode is recognized;
otherwise nothing further is read and the mnemonic stays empty. -/
theorem decode_base_dispatch (tags : Nat → Option String) (adr cmd16 : Nat)
    (next16 : Option Nat) (d : Decoded) (h : decode_base tags adr cmd16 next16 = some d) :
    (d.path = DispatchPath.base ∨ d.path = DispatchPath.unmatched) ∧
    (d.path = DispatchPath.base ↔ get_segment cmd16 0 6 ∈ base_opcodes) ∧
    (d.path = DispatchPath.base → d.consumed = 4 ∧
      ∃ nxt, next16 = some nxt ∧ d.word = get_cmd32 nxt cmd16) ∧
    (d.path = DispatchPath.unmatched → d.consumed = 2 ∧ d.cmd_name = "" ∧
      get_segment cmd16 0 6 ∉ base_opcodes) := by
  unfold decode_base at h
  split at h
  · rename_i hop
    obtain ⟨nxt, x, hn, hx, hd⟩ := with32_spec _ _ _ _ h
    subst hd
    exact ⟨Or.inl rfl, ⟨fun _ => by simp [base_opcodes, hop], fun _ => rfl⟩,
      fun _ => ⟨rfl, nxt, hn, rfl⟩, fun hp => DispatchPath.noConfusion hp⟩
  ·
    split at h
    · rename_i hop
      obtain ⟨nxt, x, hn, hx, hd⟩ := with32_spec _ _ _ _ h
      subst hd
      exact ⟨Or.inl rfl, ⟨fun _ => by simp [base_opcodes, hop], fun _ => rfl⟩,
        fun _ => ⟨rfl, nxt, hn, rfl⟩, fun hp => DispatchPath.noConfusion hp⟩
    ·
      split at h
      · rename_i hop
        obtain ⟨nxt, x, hn, hx, hd⟩ := with32_spec _ _ _ _ h
        subst hd
        exact ⟨Or.inl rfl, ⟨fun _ => by simp [base_opcodes, hop], fun _ => rfl⟩,
          fun _ => ⟨rfl, nxt, hn, rfl⟩, fun hp => DispatchPath.noConfusion hp⟩
      ·
        split at h
        · rename_i hop
          obtain ⟨nxt, x, hn, hx, hd⟩ := with32_spec _ _ _ _ h
          subst hd
          exact ⟨Or.inl rfl, ⟨fun _ => by simp [base_opcodes, hop], fun _ => rfl⟩,
            fun _ => ⟨rfl, nxt, hn, rfl⟩, fun hp => DispatchPath.noConfusion hp⟩
        ·
          split at h
          · rename_i hop
            obtain ⟨nxt, x, hn, hx, hd⟩ := with32_spec _ _ _ _ h
            subst hd
            exact ⟨Or.inl rfl, ⟨fun _ => by simp [base_opcodes, hop], fun _ => rfl⟩,
              fun _ => ⟨rfl, nxt, hn, rfl⟩, fun hp => DispatchPath.noConfusion hp⟩
          ·
            split at h
            · rename_i hop
              obtain ⟨nxt, x, hn, hx, hd⟩ := with32_spec _ _ _ _ h
              subst hd
              exact ⟨Or.inl rfl, ⟨fun _ => by simp [base_opcodes, hop], fun _ => rfl⟩,
                fun _ => ⟨rfl, nxt, hn, rfl⟩, fun hp => DispatchPath.noConfusion hp⟩
            ·
              split at h
              · rename_i hop
                obtain ⟨nxt, x, hn, hx, hd⟩ := with32_spec _ _ _ _ h
                subst hd
                exact ⟨Or.inl rfl, ⟨fun _ => by simp [base_opcodes, hop], fun _ => rfl⟩,
                  fun _ => ⟨rfl, nxt, hn, rfl⟩, fun hp => DispatchPath.noConfusion hp⟩
              ·
                split at h
                · rename_i hop
                  obtain ⟨nxt, x, hn, hx, hd⟩ := with32_spec _ _ _ _ h
                  subst hd
                  exact ⟨Or.inl rfl, ⟨fun _ => by simp [base_opcodes, hop], fun _ => rfl⟩,
                    fun _ => ⟨rfl, nxt, hn, rfl⟩, fun hp => DispatchPath.noConfusion hp⟩
                ·
                  split at h
                  · rename_i hop
                    obtain ⟨nxt, x, hn, hx, hd⟩ := with32_spec _ _ _ _ h
                    subst hd
                    exact ⟨Or.inl rfl, ⟨fun _ => by simp [base_opcodes, hop], fun _ => rfl⟩,
                      fun _ => ⟨rfl, nxt, hn, rfl⟩, fun hp => DispatchPath.noConfusion hp⟩
                  · rename_i ho1 ho2 ho3 ho4 ho5 ho6 ho7 ho8 ho9
                    rw [Option.some_inj] at h
                    subst h
                    have hnm : get_segment cmd16 0 6 ∉ base_opcodes := by
                      intro hmem
                      simp only [base_opcodes, List.mem_cons, List.not_mem_nil, or_false] at hmem
                      rcases hmem with hm | hm | hm | hm | hm | hm | hm | hm | hm
                      · exact absurd hm ho1
                      · exact absurd hm ho2
                      · exact absurd hm ho3
                      · exact absurd hm ho4
                      · exact absurd hm ho5
                      · exact absurd hm ho6
                      · exact absurd hm ho7
                      · exact absurd hm ho8
                      · exact absurd hm ho9
                    exact ⟨Or.inr rfl, ⟨fun hp => DispatchPath.noConfusion hp, fun hm => absurd hm hnm⟩,
                      fun hp => DispatchPath.noConfusion hp, fun _ => ⟨rfl, rfl, hnm⟩⟩

/-- Dispatch facts of one driver iteration: the compressed path is taken iff
the lowest two bits of the half-word are not `11`; two further bytes are read
(consuming 4 in total) iff the low bits are `11` and the 7-bit opcode is one of
the nine recognized ones; everything else consumes 2 bytes, and the
fall-through leaves the mnemonic empty. -/
theorem decode_step_dispatch (tags : Nat → Option String) (adr cmd16 : Nat)
    (next16 : Option Nat) (d : Decoded) (h : decode_step tags adr cmd16 next16 = some d) :
    (d.path = DispatchPath.compressed ↔ cmd16 % 4 ≠ 3) ∧
    (d.path = DispatchPath.base ↔ get_segment cmd16 0 6 ∈ base_opcodes) ∧
    (d.path = DispatchPath.base → d.consumed = 4 ∧
      ∃ nxt, next16 = some nxt ∧ d.word = get_cmd32 nxt cmd16) ∧
    (d.path ≠ DispatchPath.base → d.consumed = 2) ∧
    (d.path = DispatchPath.unmatched → d.cmd_name = "" ∧ cmd16 % 4 = 3) := by
  unfold decode_step at h
  split at h
  case _ hq =>
    have h4 : cmd16 % 4 = 0 := (seg01_iff cmd16).1.mp hq
    obtain ⟨x, hx, hd⟩ := map_mk16_spec _ _ _ h
    subst hd
    refine ⟨by simp [h4], ⟨fun hp => DispatchPath.noConfusion hp, fun hm => ?_⟩,
      fun hp => DispatchPath.noConfusion hp, fun _ => rfl, fun hp => DispatchPath.noConfusion hp⟩
    have := mod4_of_mem_base hm
    omega
  case _ =>
    split at h
    case _ hq =>
      have h4 : cmd16 % 4 = 1 := (seg01_iff cmd16).2.1.mp hq
      obtain ⟨x, hx, hd⟩ := map_mk16_spec _ _ _ h
      subst hd
      refine ⟨by simp [h4], ⟨fun hp => DispatchPath.noConfusion hp, fun hm => ?_⟩,
        fun hp => DispatchPath.noConfusion hp, fun _ => rfl, fun hp => DispatchPath.noConfusion hp⟩
      have := mod4_of_mem_base hm
      omega
    case _ =>
      split at h
      case _ hq =>
        have h4 : cmd16 % 4 = 2 := (seg01_iff cmd16).2.2.1.mp hq
        obtain ⟨x, hx, hd⟩ := map_mk16_spec _ _ _ h
        subst hd
        refine ⟨by simp [h4], ⟨fun hp => DispatchPath.noConfusion hp, fun hm => ?_⟩,
          fun hp => DispatchPath.noConfusion hp, fun _ => rfl, fun hp => DispatchPath.noConfusion hp⟩
        have := mod4_of_mem_base hm
        omega
      case _ h1 h2 h3 =>
        have h4 : cmd16 % 4 = 3 := by
          have c := seg01_iff cmd16
          have hc : cmd16 % 4 = 0 ∨ cmd16 % 4 = 1 ∨ cmd16 % 4 = 2 ∨ cmd16 % 4 = 3 := by omega
          rcases hc with hc | hc | hc | hc
          · exact absurd (c.1.mpr hc) h1
          · exact absurd (c.2.1.mpr hc) h2
          · exact absurd (c.2.2.1.mpr hc) h3
          · exact hc
        obtain ⟨hpb, hiff, hbase, hunm⟩ := decode_base_dispatch _ _ _ _ _ h
        refine ⟨⟨fun hp => ?_, fun hne => absurd h4 hne⟩, hiff, hbase, fun hne => ?_,
          fun hp => ⟨(hunm hp).2.1, h4⟩⟩
        · rcases hpb with hb | hb <;> rw [hb] at hp <;> exact DispatchPath.noConfusion hp
        · rcases hpb with hb | hb
          · exact absurd hb hne
          · exact (hunm hb).1

theorem not_jump_name {nm : String} {L : List String} (hmem : nm ∈ L)
    (hdisj : ∀ t ∈ (["c.jal", "c.j", "c.beqz", "c.bnez", "jal"] : List String), t ∉ L) :
    ¬(nm = "c.jal" ∨ nm = "c.j") ∧ ¬(nm = "c.beqz" ∨ nm = "c.bnez") ∧ nm ≠ "jal" := by
  refine ⟨fun hn => ?_, fun hn => ?_, fun hn => ?_⟩
  · rcases hn with hn | hn <;> subst hn
    · exact hdisj "c.jal" (by decide) hmem
    · exact hdisj "c.j" (by decide) hmem
  · rcases hn with hn | hn <;> subst hn
    · exact hdisj "c.beqz" (by decide) hmem
    · exact hdisj "c.bnez" (by decide) hmem
  · subst hn; exact hdisj "jal" (by decide) hmem

theorem not_branch_name {nm : String} {L : List String} (hmem : nm ∈ L)
    (hdisj : ∀ t ∈ (["beq", "bne", "blt", "bge", "bltu", "bgeu"] : List String), t ∉ L) :
    nm ∉ (["beq", "bne", "blt", "bge", "bltu", "bgeu"] : List String) :=
  fun hn => hdisj nm hn hmem

/-- Label-resolution facts of the base stage: the `jal` and conditional-branch
operands go through the tags lookup on the wrapped sum, and no compressed
jump/branch mnemonic is produced here. -/
theorem decode_base_resolve (tags : Nat → Option String) (adr cmd16 : Nat)
    (next16 : Option Nat) (d : Decoded) (h : decode_base tags adr cmd16 next16 = some d) :
    (d.cmd_name = "c.jal" ∨ d.cmd_name = "c.j" → False) ∧
    (d.cmd_name = "c.beqz" ∨ d.cmd_name = "c.bnez" → False) ∧
    (d.cmd_name = "jal" →
      d.args.getLast? = some (resolve tags adr (get_signed (jal_uvalue d.word) 0 20))) ∧
    (d.cmd_name ∈ (["beq", "bne", "blt", "bge", "bltu", "bgeu"] : List String) →
      d.args.getLast? = some (resolve tags adr (get_signed (br_uvalue d.word) 0 12))) := by
  unfold decode_base at h
  split at h
  · obtain ⟨nxt, x, hn, hx, hd⟩ := with32_spec _ _ _ _ h
    subst hd
    obtain ⟨hname, -, -⟩ := decode_lui_spec _ _ hx
    refine ⟨fun hn => ?_, fun hn => ?_, fun hn => ?_, fun hn => ?_⟩
    · rcases hn with hn | hn <;> exact absurd (hname.symm.trans hn) (by decide)
    · rcases hn with hn | hn <;> exact absurd (hname.symm.trans hn) (by decide)
    · exact absurd (hname.symm.trans hn) (by decide)
    · have hn2 : x.1 ∈ (["beq", "bne", "blt", "bge", "bltu", "bgeu"] : List String) := hn
      rw [hname] at hn2
      exact absurd hn2 (by decide)
  · split at h
    · obtain ⟨nxt, x, hn, hx, hd⟩ := with32_spec _ _ _ _ h
      subst hd
      obtain ⟨hname, -⟩ := decode_auipc_spec _ _ hx
      refine ⟨fun hn => ?_, fun hn => ?_, fun hn => ?_, fun hn => ?_⟩
      · rcases hn with hn | hn <;> exact absurd (hname.symm.trans hn) (by decide)
      · rcases hn with hn | hn <;> exact absurd (hname.symm.trans hn) (by decide)
      · exact absurd (hname.symm.trans hn) (by decide)
      · have hn2 : x.1 ∈ (["beq", "bne", "blt", "bge", "bltu", "bgeu"] : List String) := hn
        rw [hname] at hn2
        exact absurd hn2 (by decide)
    · split at h
      · obtain ⟨nxt, x, hn, hx, hd⟩ := with32_spec _ _ _ _ h
        subst hd
        obtain ⟨hmem, -⟩ := decode_op_imm_spec _ _ hx
        obtain ⟨hj1, hj2, hj3⟩ := not_jump_name hmem (by decide)
        refine ⟨fun hn => hj1 hn, fun hn => hj2 hn, fun hn => absurd hn hj3,
          fun hn => absurd hn (not_branch_name hmem (by decide))⟩
      · split at h
        · obtain ⟨nxt, x, hn, hx, hd⟩ := with32_spec _ _ _ _ h
          subst hd
          obtain ⟨hmem, -⟩ := decode_op_spec _ _ hx
          obtain ⟨hj1, hj2, hj3⟩ := not_jump_name hmem (by decide)
          refine ⟨fun hn => hj1 hn, fun hn => hj2 hn, fun hn => absurd hn hj3,
            fun hn => absurd hn (not_branch_name hmem (by decide))⟩
        · split at h
          · obtain ⟨nxt, x, hn, hx, hd⟩ := with32_spec _ _ _ _ h
            subst hd
            obtain ⟨hmem, -⟩ := decode_load_spec _ _ hx
            obtain ⟨hj1, hj2, hj3⟩ := not_jump_name hmem (by decide)
            refine ⟨fun hn => hj1 hn, fun hn => hj2 hn, fun hn => absurd hn hj3,
              fun hn => absurd hn (not_branch_name hmem (by decide))⟩
          · split at h
            · obtain ⟨nxt, x, hn, hx, hd⟩ := with32_spec _ _ _ _ h
              subst hd
              obtain ⟨hmem, -⟩ := decode_store_spec _ _ hx
              obtain ⟨hj1, hj2, hj3⟩ := not_jump_name hmem (by decide)
              refine ⟨fun hn => hj1 hn, fun hn => hj2 hn, fun hn => absurd hn hj3,
                fun hn => absurd hn (not_branch_name hmem (by decide))⟩
            · split at h
              · obtain ⟨nxt, x, hn, hx, hd⟩ := with32_spec _ _ _ _ h
                subst hd
                obtain ⟨hname, hlast, -⟩ := decode_jal_spec _ _ _ _ hx
                refine ⟨fun hn => ?_, fun hn => ?_, fun _ => hlast, fun hn => ?_⟩
                · rcases hn with hn | hn <;> exact absurd (hname.symm.trans hn) (by decide)
                · rcases hn with hn | hn <;> exact absurd (hname.symm.trans hn) (by decide)
                · have hn2 : x.1 ∈ (["beq", "bne", "blt", "bge", "bltu", "bgeu"] : List String) := hn
                  rw [hname] at hn2
                  exact absurd hn2 (by decide)
              · split at h
                · obtain ⟨nxt, x, hn, hx, hd⟩ := with32_spec _ _ _ _ h
                  subst hd
                  obtain ⟨hname, -⟩ := decode_jalr_spec _ _ hx
                  refine ⟨fun hn => ?_, fun hn => ?_, fun hn => ?_, fun hn => ?_⟩
                  · rcases hn with hn | hn <;> exact absurd (hname.symm.trans hn) (by decide)
                  · rcases hn with hn | hn <;> exact absurd (hname.symm.trans hn) (by decide)
                  · exact absurd (hname.symm.trans hn) (by decide)
                  · have hn2 : x.1 ∈ (["beq", "bne", "blt", "bge", "bltu", "bgeu"] : List String) := hn
                    rw [hname] at hn2
                    exact absurd hn2 (by decide)
                · split at h
                  · obtain ⟨nxt, x, hn, hx, hd⟩ := with32_spec _ _ _ _ h
                    subst hd
                    obtain ⟨hmem, hlast, -⟩ := decode_branch_spec _ _ _ _ hx
                    obtain ⟨hj1, hj2, hj3⟩ := not_jump_name hmem (by decide)
                    exact ⟨fun hn => hj1 hn, fun hn => hj2 hn, fun hn => absurd hn hj3,
                      fun _ => hlast⟩
                  · rw [Option.some_inj] at h
                    subst h
                    refine ⟨fun hn => ?_, fun hn => ?_, fun hn => ?_, fun hn => ?_⟩
                    · rcases hn with hn | hn <;> simp at hn
                    · rcases hn with hn | hn <;> simp at hn
                    · simp at hn
                    · simp at hn

/-- Label-resolution facts of one driver iteration: every `c.jal`, `c.j`,
`c.beqz`, `c.bnez`, `jal`, and conditional-branch operand is resolved through
the tags lookup on the 32-bit wrapping sum of the instruction address and the
decoded displacement, falling back to the signed decimal displacement. -/
theorem decode_step_resolve (tags : Nat → Option String) (adr cmd16 : Nat)
    (next16 : Option Nat) (d : Decoded) (h : decode_step tags adr cmd16 next16 = some d) :
    (d.cmd_name = "c.jal" ∨ d.cmd_name = "c.j" →
      d.args.getLast? = some (resolve tags adr (get_signed (cj_uvalue cmd16) 0 11))) ∧
    (d.cmd_name = "c.beqz" ∨ d.cmd_name = "c.bnez" →
      d.args.getLast? = some (resolve tags adr (get_signed (cb_uvalue cmd16) 0 8))) ∧
    (d.cmd_name = "jal" →
      d.args.getLast? = some (resolve tags adr (get_signed (jal_uvalue d.word) 0 20))) ∧
    (d.cmd_name ∈ (["beq", "bne", "blt", "bge", "bltu", "bgeu"] : List String) →
      d.args.getLast? = some (resolve tags adr (get_signed (br_uvalue d.word) 0 12))) := by
  unfold decode_step at h
  split at h
  · obtain ⟨x, hx, hd⟩ := map_mk16_spec _ _ _ h
    subst hd
    obtain ⟨hmem, -⟩ := decode_q0_spec _ _ hx
    obtain ⟨hj1, hj2, hj3⟩ := not_jump_name hmem (by decide)
    exact ⟨fun hn => absurd hn hj1, fun hn => absurd hn hj2, fun hn => absurd hn hj3,
      fun hn => absurd hn (not_branch_name hmem (by decide))⟩
  · split at h
    · obtain ⟨x, hx, hd⟩ := map_mk16_spec _ _ _ h
      subst hd
      obtain ⟨hmem, -, hcj, hcb⟩ := decode_q1_spec _ _ _ _ hx
      refine ⟨fun hn => hcj hn, fun hn => hcb hn, fun hn => ?_,
        fun hn => absurd hn (not_branch_name hmem (by decide))⟩
      have hn2 : x.1 = "jal" := hn
      rw [hn2] at hmem
      exact absurd hmem (by decide)
    · split at h
      · obtain ⟨x, hx, hd⟩ := map_mk16_spec _ _ _ h
        subst hd
        obtain ⟨hmem, -⟩ := decode_q2_spec _ _ hx
        obtain ⟨hj1, hj2, hj3⟩ := not_jump_name hmem (by decide)
        exact ⟨fun hn => absurd hn hj1, fun hn => absurd hn hj2, fun hn => absurd hn hj3,
          fun hn => absurd hn (not_branch_name hmem (by decide))⟩
      · obtain ⟨hb1, hb2, hb3, hb4⟩ := decode_base_resolve _ _ _ _ _ h
        exact ⟨fun hn => (hb1 hn).elim, fun hn => (hb2 hn).elim, hb3, hb4⟩

/-! ## Emitter totality for 1-4 arguments -/

theorem print_cmd_isSome (adr : Nat) (tag : String) (args : List String) (ls : Bool)
    (h1 : 1 ≤ args.length) (h4 : args.length ≤ 4) : (print_cmd adr tag args ls).isSome := by
  unfold print_cmd
  rcases ls <;>
    rcases args with _ | ⟨a, _ | ⟨b, _ | ⟨c, _ | ⟨e, _ | rest⟩⟩⟩⟩ <;>
    simp_all

/-! ## The hexadecimal rendering of addresses -/

theorem hexGo_len (dig : Nat → Char) :
    ∀ fuel n acc m, n < fuel → n < 16 ^ (m + 1) →
      (hexGo dig fuel n acc).length ≤ (m + 1) + acc.length := by
  intro fuel
  induction fuel with
  | zero => intro n acc m h _; omega
  | succ f ih =>
    intro n acc m hf hm
    rw [hexGo]
    split
    · simp
      omega
    · rename_i hge
      have hn0 : 16 ≤ n := by omega
      have hm1 : 1 ≤ m := by
        by_contra hc
        have : m = 0 := by omega
        subst this
        simp at hm
        omega
    -- n / 16 shrinks below the fuel and below 16 ^ m
      have hdf : n / 16 < f := by
        have := Nat.div_lt_self (by omega : 0 < n) (by omega : 1 < 16)
        omega
      have hdm : n / 16 < 16 ^ (m - 1 + 1) := by
        have h1 : m - 1 + 1 = m := by omega
        rw [h1]
        rw [Nat.div_lt_iff_lt_mul (by omega : 0 < 16)]
        calc n < 16 ^ (m + 1) := hm
          _ = 16 ^ m * 16 := by rw [pow_succ]
      have := ih (n / 16) (dig (n % 16) :: acc) (m - 1) hdf hdm
      simp at this
      simp
      omega

theorem hexGo_chars (dig : Nat → Char) :
    ∀ fuel n acc c, c ∈ hexGo dig fuel n acc → (∃ k, k < 16 ∧ c = dig k) ∨ c ∈ acc := by
  intro fuel
  induction fuel with
  | zero => intro n acc c hc; exact Or.inr hc
  | succ f ih =>
    intro n acc c hc
    rw [hexGo] at hc
    split at hc
    · rcases List.mem_cons.mp hc with hc | hc
      · exact Or.inl ⟨n, by omega, hc⟩
      · exact Or.inr hc
    · rcases ih (n / 16) (dig (n % 16) :: acc) c hc with hc2 | hc2
      · exact Or.inl hc2
      · rcases List.mem_cons.mp hc2 with hc3 | hc3
        · exact Or.inl ⟨n % 16, Nat.mod_lt _ (by omega), hc3⟩
        · exact Or.inr hc3

theorem hexStr_length_le (n : Nat) (h : n < 2 ^ 32) : (hexStr n).length ≤ 8 := by
  unfold hexStr
  have := hexGo_len hexChar (n + 1) n [] 7 (by omega) (by norm_num; omega)
  simpa using this

/-- Format `%08x` of a 32-bit value is exactly 8 characters. -/
theorem hex8_length (adr : Nat) (h : adr < 2 ^ 32) : (hex8 adr).length = 8 := by
  have hle := hexStr_length_le adr h
  unfold hex8 padLeftWith
  split
  · rename_i hlt
    simp
    omega
  · omega

/-- Every character of `%08x` output is a lowercase hexadecimal digit. -/
theorem hex8_chars (adr : Nat) :
    ∀ c ∈ (hex8 adr).data, ('0' ≤ c ∧ c ≤ '9') ∨ ('a' ≤ c ∧ c ≤ 'f') := by
  intro c hc
  have hdigit : ∀ k, k < 16 → ('0' ≤ hexChar k ∧ hexChar k ≤ '9') ∨
      ('a' ≤ hexChar k ∧ hexChar k ≤ 'f') := by decide
  unfold hex8 padLeftWith at hc
  split at hc
  · rw [show ∀ a b : String, (a ++ b).data = a.data ++ b.data from fun a b => rfl] at hc
    rcases List.mem_append.mp hc with hc2 | hc2
    · have := List.eq_of_mem_replicate (by simpa using hc2)
      subst this
      exact Or.inl (by decide)
    · rcases hexGo_chars hexChar (adr + 1) adr [] c (by simpa [hexStr] using hc2) with h2 | h2
      · obtain ⟨k, hk, hck⟩ := h2
        subst hck
        exact hdigit k hk
      · simp at h2
  · rcases hexGo_chars hexChar (adr + 1) adr [] c (by simpa [hexStr] using hc) with h2 | h2
    · obtain ⟨k, hk, hck⟩ := h2
      subst hck
      exact hdigit k hk
    · simp at h2

/-! ## The driver loop: addresses of adjacent emitted lines -/

/-- Adjacent output lines that both carry an address differ by 2 or 4. -/
def adr_adjacent (x y : Option Nat × String) : Prop :=
  ∀ a b, x.1 = some a → y.1 = some b → b - a = 2 ∨ b - a = 4

/-- The first line that `parse_text_fuel` emits either has no address
(`unknown_command`) or carries exactly the entry offset. -/
theorem fuel_head_addr (tags : Nat → Option String) (fuel adr : Nat) (bytes : List Nat)
    (x : Option Nat × String) (hx : (parse_text_fuel tags fuel adr bytes).head? = some x) :
    x.1 = none ∨ x.1 = some adr := by
  rcases fuel with _ | fuel
  · simp [parse_text_fuel] at hx
  rcases bytes with _ | ⟨b0, _ | ⟨b1, rest⟩⟩
  · simp [parse_text_fuel] at hx
  · simp [parse_text_fuel] at hx
  · rw [parse_text_fuel] at hx
    split at hx
    · simp at hx
    · split at hx
      · rw [List.head?_cons, Option.some_inj] at hx
        subst hx
        exact Or.inl rfl
      · split at hx
        · simp at hx
        · rw [List.head?_cons, Option.some_inj] at hx
          subst hx
          exact Or.inr rfl

/-- Along any run of the driver loop, adjacent emitted lines that both carry
addresses are exactly one instruction apart: the difference is the number of
bytes the first of the two consumed, i.e. 2 or 4. -/
theorem fuel_chain (tags : Nat → Option String) :
    ∀ fuel adr bytes, List.Chain' adr_adjacent (parse_text_fuel tags fuel adr bytes) := by
  intro fuel
  induction fuel with
  | zero => intro adr bytes; simp [parse_text_fuel]
  | succ f ih =>
    intro adr bytes
    rcases bytes with _ | ⟨b0, _ | ⟨b1, rest⟩⟩
    · simp [parse_text_fuel]
    · simp [parse_text_fuel]
    · rw [parse_text_fuel]
      split
      · simp
      · rename_i d hd
        have hcons := (decode_step_spec _ _ _ _ _ hd).2
        split
        · rw [List.chain'_cons']
          refine ⟨?_, ih _ _⟩
          intro y _ a b h1 _
          simp at h1
        · split
          · simp
          · rw [List.chain'_cons']
            refine ⟨?_, ih _ _⟩
            intro y hy a b h1 h2
            have ha : a = adr := by simpa using h1.symm
            rcases fuel_head_addr tags f (adr + d.consumed) _ y (by simpa using hy) with
              hy2 | hy2
            · rw [hy2] at h2; simp at h2
            · rw [hy2, Option.some_inj] at h2
              subst h2
              subst ha
              omega

/-! ## The rendered `lui` immediate -/

/-- The 20-bit field `w[31:12]` (claim C7's description of the `lui` operand). -/
def lui_imm_field (w : Nat) : Nat := (w >>> 12) % 2 ^ 20

theorem lor_lt_two_pow {a b n : Nat} (ha : a < 2 ^ n) (hb : b < 2 ^ n) : a ||| b < 2 ^ n :=
  Nat.or_lt_two_pow ha hb

/-- What the source computes for the `lui` operand,
`get_signed(get_unsigned(cmd32, 12, 31) << 12, 0, 31)`, is the 20-bit field
`w[31:12]` shifted left by 12 and sign-extended at bit 31. -/
theorem lui_imm_characterization (w : Nat) (hw : w < 2 ^ 32) :
    get_signed (get_unsigned w 12 31 <<< 12) 0 31 =
      if w.testBit 31 then (lui_imm_field w : Int) * 2 ^ 12 - 2 ^ 32
      else (lui_imm_field w : Int) * 2 ^ 12 := by
  have hflt : w >>> 12 < 2 ^ 20 := by
    rw [Nat.shiftRight_eq_div_pow]
    rw [Nat.div_lt_iff_lt_mul (by positivity)]
    calc w < 2 ^ 32 := hw
      _ = 2 ^ 20 * 2 ^ 12 := by norm_num
  have hf : get_unsigned w 12 31 = w >>> 12 := by
    rw [get_unsigned_eq]
    rw [show 31 + 1 - 12 = 20 from rfl]
    exact Nat.mod_eq_of_lt hflt
  have hfield : lui_imm_field w = w >>> 12 := by
    unfold lui_imm_field
    exact Nat.mod_eq_of_lt hflt
  set x := get_unsigned w 12 31 <<< 12 with hxdef
  have hx : x = (w >>> 12) * 2 ^ 12 := by rw [hxdef, hf, Nat.shiftLeft_eq]
  have hxlt : x < 2 ^ 32 := by
    rw [hx]
    calc (w >>> 12) * 2 ^ 12 < 2 ^ 20 * 2 ^ 12 :=
          (Nat.mul_lt_mul_right (by positivity)).mpr hflt
      _ = 2 ^ 32 := by norm_num
  have h2 : x >>> 12 = w >>> 12 := by
    rw [hx, Nat.shiftRight_eq_div_pow]
    omega
  have hbit : x >>> 31 = w >>> 31 := by
    rw [show (31 : Nat) = 12 + 19 from rfl, Nat.shiftRight_add, h2, ← Nat.shiftRight_add]
  have htb : w.testBit 31 = decide (w >>> 31 % 2 = 1) := by
    rw [Nat.testBit_to_div_mod, Nat.shiftRight_eq_div_pow]
  rcases Nat.mod_two_eq_zero_or_one (w >>> 31) with hb | hb
  · have ht : w.testBit 31 = false := by rw [htb, hb]; rfl
    have hxbit : x >>> 31 % 2 ≠ 1 := by rw [hbit, hb]; omega
    rw [get_signed_of_bit_clear _ _ _ hxbit]
    simp only [ht, Bool.false_eq_true, if_false]
    have hx31 : x < 2 ^ 31 := by
      have hd : x >>> 31 = 0 := by rw [hbit]; omega
      rw [Nat.shiftRight_eq_div_pow] at hd
      omega
    have hu : get_unsigned x 0 (31 - 1) = x := by
      rw [get_unsigned_eq, Nat.shiftRight_zero]
      exact Nat.mod_eq_of_lt (by norm_num at hx31 ⊢; omega)
    rw [hu, hx, hfield]
    push_cast
    ring
  · have ht : w.testBit 31 = true := by rw [htb, hb]; rfl
    have hxbit : x >>> 31 % 2 = 1 := by rw [hbit, hb]
    rw [get_signed_of_bit_set _ _ _ (by omega) hxbit]
    simp only [ht, if_true]
    have hu : get_unsigned x 0 31 = x := by
      rw [get_unsigned_eq, Nat.shiftRight_zero]
      exact Nat.mod_eq_of_lt (by norm_num at hxlt ⊢; omega)
    rw [hu, hx, hfield]
    push_cast
    ring

/-! ## Demonstration values used by witnesses -/

/-- A tags mapping with one symbol, at address 8. -/
def demo_tags : Nat → Option String := fun a => if a = 8 then some "lab" else none

/-- The decode of the word `0x00001537` (`lui a0, 4096`, bytes `37 15 00 00`). -/
def d_lui : Decoded := ⟨"lui", ["a0", "4096"], false, 4, DispatchPath.base, 0x1537⟩

/-- The decode of the half-word `0xA021` (`c.j` with displacement 8). -/
def d_cj : Decoded := ⟨"c.j", ["lab"], false, 2, DispatchPath.compressed, 0xA021⟩

/-- The decode of the half-word `0x0001` (`c.nop`). -/
def d_cnop : Decoded := ⟨"c.nop", [], false, 2, DispatchPath.compressed, 1⟩

/-! ## The claims -/

/-- C1, counterexample to the claim as stated: the half-word `0x0073` (the low
half of `ecall`) has lowest two bits `11`, yet the driver reads no further
bytes: the iteration consumes only 2 bytes (the placeholder is emitted), so
"exactly 4 bytes are consumed for that instruction" is false. -/
theorem c1_counterexample :
    (0x0073 : Nat) % 4 = 3 ∧
    decode_step no_tags 0 0x0073 (some 0) =
      some ⟨"", [], false, 2, DispatchPath.unmatched, 0x0073⟩ ∧
    ¬(2 : Nat) = 4 :=
  ⟨by norm_num, by rfl, by norm_num⟩

/-- C1 (amended): the 16-bit compressed path is used iff the lowest two bits
of the half-word are not `11`; two further bytes are read, the 32-bit word is
formed with the new half-word in the high 16 bits and dispatched to the base
decoder (4 bytes consumed in total) iff the low 7 bits are one of the nine
recognized opcodes; a word with lowest two bits `11` and any other opcode
consumes only 2 bytes and produces the empty mnemonic. -/
theorem c1_amended_dispatch (tags : Nat → Option String) (adr cmd16 : Nat)
    (next16 : Option Nat) (d : Decoded) (h : decode_step tags adr cmd16 next16 = some d) :
    (d.path = DispatchPath.compressed ↔ cmd16 % 4 ≠ 3) ∧
    (d.path = DispatchPath.base ↔ get_segment cmd16 0 6 ∈ base_opcodes) ∧
    (d.path = DispatchPath.base → d.consumed = 4 ∧
      ∃ nxt, next16 = some nxt ∧ d.word = get_cmd32 nxt cmd16) ∧
    (d.path ≠ DispatchPath.base → d.consumed = 2) ∧
    (d.path = DispatchPath.unmatched → d.cmd_name = "" ∧ cmd16 % 4 = 3) :=
  decode_step_dispatch tags adr cmd16 next16 d h

/-- Witness for C1 at the concrete `lui` instruction `37 15 00 00`. -/
theorem c1_amended_dispatch_witness :
    (d_lui.path = DispatchPath.compressed ↔ (0x1537 : Nat) % 4 ≠ 3) ∧
    (d_lui.path = DispatchPath.base ↔ get_segment 0x1537 0 6 ∈ base_opcodes) ∧
    (d_lui.path = DispatchPath.base → d_lui.consumed = 4 ∧
      ∃ nxt, (some 0 : Option Nat) = some nxt ∧ d_lui.word = get_cmd32 nxt 0x1537) ∧
    (d_lui.path ≠ DispatchPath.base → d_lui.consumed = 2) ∧
    (d_lui.path = DispatchPath.unmatched → d_lui.cmd_name = "" ∧ (0x1537 : Nat) % 4 = 3) :=
  c1_amended_dispatch no_tags 0 0x1537 (some 0) d_lui (by rfl)

/-- C2: quadrant 0, funct3 `011` is claimed to decode as `c.flw` with the
`c.lw` offset layout, but the source catches `"011"` in the `c.fld`/`c.fsd`
group first (the `"011"` test of the `c.lw` group is unreachable): for the
half-word `0x6040` the code emits `c.ld s0, 128(s0)` (the `c.fld` layout),
while the claimed decode is `c.flw s0, 4(s0)` (the `c.lw` layout computes 4). -/
theorem c2_flw_bug :
    decode_step no_tags 0 0x6040 none =
      some ⟨"c.ld", ["s0", "128", "s0"], true, 2, DispatchPath.compressed, 0x6040⟩ ∧
    ("c.ld" : String) ≠ "c.flw" ∧
    (get_unsigned 0x6040 10 12 <<< 3) + (get_unsigned 0x6040 6 6 <<< 2) +
      (get_unsigned 0x6040 5 5 <<< 6) = 4 :=
  ⟨by rfl, by decide, by rfl⟩

/-- C3: for `jal` the source extracts the destination register with
`get_signed(cmd32, 7, 11)` instead of `get_unsigned`: for the word
`0x0000086F` (`jal` with rd = 16, bytes `6f 08 00 00`) the field is 16 and
the expected operand is `a6`, but the code computes `-16`, converts it to
`4294967280` and `get_reg` throws, aborting the run (`none`). -/
theorem c3_jal_rd_bug :
    get_unsigned 0x086F 7 11 = 16 ∧
    get_reg 16 = some "a6" ∧
    get_signed 0x086F 7 11 = -16 ∧
    get_reg (to_uint32 (get_signed 0x086F 7 11)) = none ∧
    decode_step no_tags 0 0x086F (some 0) = none :=
  ⟨by rfl, by rfl, by rfl, by rfl, by rfl⟩

/-- C4: for every `c.jal`, `c.j`, `c.beqz`, `c.bnez`, `jal` and conditional
branch, the rendered target operand is the tags entry at the 32-bit wrapping
sum of the instruction address and the decoded displacement when one exists,
and otherwise the displacement as a signed decimal (`resolve`). -/
theorem c4_label_resolution (tags : Nat → Option String) (adr cmd16 : Nat)
    (next16 : Option Nat) (d : Decoded) (h : decode_step tags adr cmd16 next16 = some d) :
    (d.cmd_name = "c.jal" ∨ d.cmd_name = "c.j" →
      d.args.getLast? = some (resolve tags adr (get_signed (cj_uvalue cmd16) 0 11))) ∧
    (d.cmd_name = "c.beqz" ∨ d.cmd_name = "c.bnez" →
      d.args.getLast? = some (resolve tags adr (get_signed (cb_uvalue cmd16) 0 8))) ∧
    (d.cmd_name = "jal" →
      d.args.getLast? = some (resolve tags adr (get_signed (jal_uvalue d.word) 0 20))) ∧
    (d.cmd_name ∈ (["beq", "bne", "blt", "bge", "bltu", "bgeu"] : List String) →
      d.args.getLast? = some (resolve tags adr (get_signed (br_uvalue d.word) 0 12))) :=
  decode_step_resolve tags adr cmd16 next16 d h

/-- Witness for C4 at a concrete `c.j` (half-word `0xA021`, displacement 8)
whose target address 8 carries the symbol `lab` in `demo_tags`. -/
theorem c4_label_resolution_witness :
    (d_cj.cmd_name = "c.jal" ∨ d_cj.cmd_name = "c.j" →
      d_cj.args.getLast? = some (resolve demo_tags 0 (get_signed (cj_uvalue 0xA021) 0 11))) ∧
    (d_cj.cmd_name = "c.beqz" ∨ d_cj.cmd_name = "c.bnez" →
      d_cj.args.getLast? = some (resolve demo_tags 0 (get_signed (cb_uvalue 0xA021) 0 8))) ∧
    (d_cj.cmd_name = "jal" →
      d_cj.args.getLast? = some (resolve demo_tags 0 (get_signed (jal_uvalue d_cj.word) 0 20))) ∧
    (d_cj.cmd_name ∈ (["beq", "bne", "blt", "bge", "bltu", "bgeu"] : List String) →
      d_cj.args.getLast? = some (resolve demo_tags 0 (get_signed (br_uvalue d_cj.word) 0 12))) :=
  c4_label_resolution demo_tags 0 0xA021 none d_cj (by rfl)

/-- C6, counterexample to the claim as stated: in the stream
`13 00 00 00 73 00 01 00` (an `addi`, an unrecognized word with low bits `11`,
and a `c.nop`), the placeholder line carries no address, and the two
surrounding addressed lines are at 0 and 6 — a difference of 6, not 2 or 4. -/
theorem c6_counterexample :
    (parse_text_go no_tags 0 [0x13, 0x00, 0x00, 0x00, 0x73, 0x00, 0x01, 0x00]).filterMap
      Prod.fst = [0, 6] ∧
    ¬((6 : Nat) - 0 = 2 ∨ (6 : Nat) - 0 = 4) :=
  ⟨by rfl, by decide⟩

/-- C6 (amended): every loop iteration advances the cursor by exactly 2 or 4
bytes, and any two ADJACENT emitted lines that both carry addresses (i.e. with
no `unknown_command` placeholder between them) differ by exactly 2 or 4. -/
theorem c6_amended_addresses :
    (∀ tags adr cmd16 next16 d,
      decode_step tags adr cmd16 next16 = some d → d.consumed = 2 ∨ d.consumed = 4) ∧
    (∀ tags adr bytes, List.Chain' adr_adjacent (parse_text_go tags adr bytes)) :=
  ⟨fun tags adr cmd16 next16 d h => (decode_step_spec tags adr cmd16 next16 d h).2,
   fun tags adr bytes => fuel_chain tags bytes.length adr bytes⟩

/-- Witness for C6 at a `c.nop` step and a concrete three-line run. -/
theorem c6_amended_addresses_witness :
    (d_cnop.consumed = 2 ∨ d_cnop.consumed = 4) ∧
    List.Chain' adr_adjacent
      (parse_text_go no_tags 0 [0x13, 0x00, 0x00, 0x00, 0x73, 0x00, 0x01, 0x00]) :=
  ⟨c6_amended_addresses.1 no_tags 0 1 none d_cnop (by rfl),
   c6_amended_addresses.2 no_tags 0 [0x13, 0x00, 0x00, 0x00, 0x73, 0x00, 0x01, 0x00]⟩

/-- C7, counterexample to the claim as stated: the bytes `37 15 00 00` encode
the word `0x00001537`, whose 20-bit field `w[31:12]` is `0x00001`, so the
decoder emits `lui a0, 4096` — not `lui a0, 20480` as claimed. -/
theorem c7_counterexample :
    parse_text_go no_tags 0 [0x37, 0x15, 0x00, 0x00] =
      [(some 0, "00000000             lui a0, 4096\n")] ∧
    ("00000000             lui a0, 4096\n" : String) ≠
      "00000000             lui a0, 20480\n" :=
  ⟨by rfl, by decide⟩

/-- C7 (amended): on bytes `37 15 00 00` the decoder emits `lui a0, 4096`;
in general, for every word with opcode `0110111` the rendered immediate is the
20-bit field `w[31:12]` shifted left by 12 and sign-extended at bit 31. -/
theorem c7_lui_immediate (tags : Nat → Option String) (adr cmd16 nxt : Nat) (d : Decoded)
    (hc : cmd16 < 2 ^ 16) (hn : nxt < 2 ^ 16)
    (hop : get_segment cmd16 0 6 = "0110111")
    (h : decode_step tags adr cmd16 (some nxt) = some d) :
    d.cmd_name = "lui" ∧
    d.args.getLast? = some (toString
      (if (get_cmd32 nxt cmd16).testBit 31
        then (lui_imm_field (get_cmd32 nxt cmd16) : Int) * 2 ^ 12 - 2 ^ 32
        else (lui_imm_field (get_cmd32 nxt cmd16) : Int) * 2 ^ 12)) := by
  have h3 : cmd16 % 4 = 3 := mod4_of_opcode _ hop (by rfl) (by rfl)
  have n1 : ¬get_segment cmd16 0 1 = "00" := fun hq => by
    have := (seg01_iff cmd16).1.mp hq; omega
  have n2 : ¬get_segment cmd16 0 1 = "01" := fun hq => by
    have := (seg01_iff cmd16).2.1.mp hq; omega
  have n3 : ¬get_segment cmd16 0 1 = "10" := fun hq => by
    have := (seg01_iff cmd16).2.2.1.mp hq; omega
  unfold decode_step at h
  rw [if_neg n1, if_neg n2, if_neg n3] at h
  unfold decode_base at h
  rw [if_pos hop] at h
  obtain ⟨nxt2, x, hn2, hx, hd⟩ := with32_spec _ _ _ _ h
  rw [Option.some_inj] at hn2
  subst hn2
  subst hd
  obtain ⟨hname, hlast, -⟩ := decode_lui_spec _ _ hx
  have hwlt : get_cmd32 nxt cmd16 < 2 ^ 32 := by
    unfold get_cmd32
    apply lor_lt_two_pow
    · calc nxt <<< 16 = nxt * 2 ^ 16 := Nat.shiftLeft_eq _ _
        _ < 2 ^ 16 * 2 ^ 16 := (Nat.mul_lt_mul_right (by positivity)).mpr hn
        _ = 2 ^ 32 := by norm_num
    · calc cmd16 < 2 ^ 16 := hc
        _ < 2 ^ 32 := by norm_num
  refine ⟨hname, ?_⟩
  show x.2.1.getLast? = _
  rw [hlast, lui_imm_characterization _ hwlt]

/-- Witness for C7 at the concrete bytes `37 15 00 00`. -/
theorem c7_lui_immediate_witness :
    d_lui.cmd_name = "lui" ∧
    d_lui.args.getLast? = some (toString
      (if (get_cmd32 0 0x1537).testBit 31
        then (lui_imm_field (get_cmd32 0 0x1537) : Int) * 2 ^ 12 - 2 ^ 32
        else (lui_imm_field (get_cmd32 0 0x1537) : Int) * 2 ^ 12)) :=
  c7_lui_immediate no_tags 0 0x1537 0 d_lui (by norm_num) (by norm_num) (by rfl) (by rfl)

/-- Formalization of C8's stated line prefix: "the symbol name right-padded
into a 10-column field" (i.e. the name followed by the padding spaces). -/
def claimed_line_start (adr : Nat) (tag : String) : String :=
  if tag = "" then hex8 adr ++ String.mk (List.replicate 13 ' ')
  else hex8 adr ++ " " ++ pad_right tag 10 ++ ": "

/-- C8, counterexample to the claim as stated: for the symbol `main` the
claimed prefix right-pads the name (`"00000000 main      : "`), but the
emitter uses `sprintf("%08x %10s: ", ...)`, which left-pads it, producing
`"00000000       main: "`. -/
theorem c8_counterexample :
    claimed_line_start 0 "main" = "00000000 main      : " ∧
    print_cmd 0 "main" ["c.nop"] false = some "00000000       main: c.nop\n" ∧
    ¬(claimed_line_start 0 "main").data <+: ("00000000       main: c.nop\n" : String).data :=
  ⟨by rfl, by rfl, by decide⟩

/-- C8 (amended): every emitted line begins with the address as exactly 8
lowercase hexadecimal digits; with a symbol the address is followed by one
space, the symbol name RIGHT-ALIGNED (left-padded with spaces) into a
10-column field, a colon and one space; without a symbol by exactly 13
spaces. -/
theorem c8_line_format (adr : Nat) (tag : String) (args : List String) (ls : Bool)
    (line : String) (ha : adr < 2 ^ 32) (h : print_cmd adr tag args ls = some line) :
    (hex8 adr).length = 8 ∧
    (∀ c ∈ (hex8 adr).data, ('0' ≤ c ∧ c ≤ '9') ∨ ('a' ≤ c ∧ c ≤ 'f')) ∧
    (tag = "" → ∃ body, line = hex8 adr ++ String.mk (List.replicate 13 ' ') ++ body) ∧
    (tag ≠ "" → ∃ body, line = hex8 adr ++ " " ++ pad_left tag 10 ++ ": " ++ body) := by
  simp only [print_cmd] at h
  rw [Option.map_eq_some'] at h
  obtain ⟨b, hb, hl⟩ := h
  subst hl
  refine ⟨hex8_length adr ha, hex8_chars adr, fun ht => ⟨b, ?_⟩, fun ht => ⟨b, ?_⟩⟩
  · rw [if_pos ht]
  · rw [if_neg ht]

/-- Witness for C8 at the `c.nop` line with symbol `main`. -/
theorem c8_line_format_witness :
    (hex8 0).length = 8 ∧
    (∀ c ∈ (hex8 0).data, ('0' ≤ c ∧ c ≤ '9') ∨ ('a' ≤ c ∧ c ≤ 'f')) ∧
    (("main" : String) = "" → ∃ body, "00000000       main: c.nop\n" =
      hex8 0 ++ String.mk (List.replicate 13 ' ') ++ body) ∧
    (("main" : String) ≠ "" → ∃ body, "00000000       main: c.nop\n" =
      hex8 0 ++ " " ++ pad_left "main" 10 ++ ": " ++ body) :=
  c8_line_format 0 "main" ["c.nop"] false "00000000       main: c.nop\n"
    (by norm_num) (by rfl)

/-- C9, counterexample to the claim as stated: the header produced by
`sprintf("%s %-15s %7s %-8s %-8s %-8s %6s %s\n", ...)` has 14 spaces between
`Value` and `Size` (and 7 between `Vis` and `Index`), not the claimed 11
(resp. 8). -/
theorem c9_counterexample :
    symtab_header ≠
      "Symbol Value           Size Type     Bind     Vis        Index Name\n" := by
  decide

/-- C9 (amended): the `.symtab` dump header is exactly the string produced by
the format `%s %-15s %7s %-8s %-8s %-8s %6s %s` on the column titles, and each
body line is produced by `[%4d] 0x%-15X %5d %-8s %-8s %-8s %6s %s` applied to
the symbol index, value, size, type name, bind name, visibility name,
section-index name and symbol name. -/
theorem c9_symtab_format :
    symtab_header =
      "Symbol Value              Size Type     Bind     Vis       Index Name\n" ∧
    ∀ idx sym name s, symtab_line idx sym name = some s →
      ∃ t b, get_type sym.st_info = some t ∧ get_bind sym.st_info = some b ∧
        s = "[" ++ pad_left (toString idx) 4 ++ "] 0x" ++
          pad_right (hexStrU sym.st_value) 15 ++ " " ++ pad_left (toString sym.st_size) 5 ++
          " " ++ pad_right t 8 ++ " " ++ pad_right b 8 ++ " " ++
          pad_right (get_visibility sym.st_other) 8 ++ " " ++
          pad_left (get_index sym.st_shndx) 6 ++ " " ++ name ++ "\n" := by
  refine ⟨by rfl, fun idx sym name s h => ?_⟩
  simp only [symtab_line, Option.bind_eq_bind, Option.bind_eq_some, Option.some_inj] at h
  obtain ⟨t, ht, b, hb, hs⟩ := h
  exact ⟨t, b, ht, hb, hs.symm⟩

/-- Witness for C9 at a concrete `FUNC GLOBAL DEFAULT` symbol. -/
theorem c9_symtab_format_witness :
    ∃ t b, get_type 0x12 = some t ∧ get_bind 0x12 = some b ∧
      ("[   1] 0x40                 12 FUNC     GLOBAL   DEFAULT       1 f\n" : String) =
        "[" ++ pad_left (toString 1) 4 ++ "] 0x" ++ pad_right (hexStrU 0x40) 15 ++ " " ++
        pad_left (toString 12) 5 ++ " " ++ pad_right t 8 ++ " " ++ pad_right b 8 ++ " " ++
        pad_right (get_visibility 0) 8 ++ " " ++ pad_left (get_index 1) 6 ++ " " ++
        "f" ++ "\n" :=
  c9_symtab_format.2 1 ⟨5, 0x40, 12, 0x12, 0, 1⟩ "f"
    "[   1] 0x40                 12 FUNC     GLOBAL   DEFAULT       1 f\n" (by rfl)

/-- C10: every decoded instruction with a non-empty mnemonic hands the emitter
between 1 and 4 strings (the mnemonic plus at most three operands), so
`print_cmd`'s wrong-number-of-arguments branch is unreachable during
disassembly. -/
theorem c10_emitter_args (tags : Nat → Option String) (adr cmd16 : Nat) (next16 : Option Nat)
    (d : Decoded) (tag : String) (h : decode_step tags adr cmd16 next16 = some d)
    (hne : d.cmd_name ≠ "") :
    1 ≤ (d.cmd_name :: d.args).length ∧ (d.cmd_name :: d.args).length ≤ 4 ∧
    (print_cmd adr tag (d.cmd_name :: d.args) d.is_load_store).isSome := by
  have hlen := (decode_step_spec tags adr cmd16 next16 d h).1
  exact ⟨by simp, by simp; omega, print_cmd_isSome _ _ _ _ (by simp) (by simp; omega)⟩

/-- Witness for C10 at the `c.nop` decode. -/
theorem c10_emitter_args_witness :
    1 ≤ (d_cnop.cmd_name :: d_cnop.args).length ∧
    (d_cnop.cmd_name :: d_cnop.args).length ≤ 4 ∧
    (print_cmd 0 "main" (d_cnop.cmd_name :: d_cnop.args) d_cnop.is_load_store).isSome :=
  c10_emitter_args no_tags 0 1 none d_cnop "main" (by rfl) (by decide)

end Disasm
